import Mathlib

/-!
# Verification of the trifle structured-log rendering engine

Shallow embedding of the `trifle` text handler (`package trifle`): the value
and attribute model, key quoting/escaping, key-priority styling, context-key
extraction, handler cloning and pre-formatting, and the record rendering
pipeline (`commonHandler.handle` with `opts.ReplaceAttr == nil`).

Modelling conventions:
* Go strings are modelled at the rune level (`String` / `List Char`); the
  byte buffers (`Buffer`, a repository file not present under `src/`, §4.3 of
  the spec) are modelled from the spec as an append-only `List Char` with
  length-based truncation (`SetLen`) — every position recorded by the code is
  a length of the same buffer, so rune positions are consistent.
* The styling collaborator (`pkg/color`, only partially present in `src/`) is
  modelled from the spec: `Colorize`/`Sprint` wrap the text in an SGR escape
  sequence for the requested style and a reset.
* `sync.Mutex`/`io.Writer` are dropped: `handle` returns the rendered line
  instead of writing it.  `atomic.Int64` is an `Int` field updated by state
  passing, faithful because the Go field is a per-struct value (not a shared
  pointer).
* Go `time.Time` is modelled as UTC nanoseconds since the Unix epoch.
-/

/-! ## Styling collaborator (modelled from the spec) -/

/-- Modelled from the spec: the semantic styles the renderer requests from the
styling collaborator (`pkg/color`, whose `Color` type is not in `src/`). -/
inductive ColorStyle where
  | fgHiGreen | fgHiWhite | fgHiBlue | fgHiYellow | fgHiRed
  | faint | bold | faintBold
  deriving DecidableEq

/-- Modelled from the spec: SGR opening sequence per style. -/
def sgrCode : ColorStyle → String
  | .fgHiGreen  => "\x1b[92m"
  | .fgHiWhite  => "\x1b[97m"
  | .fgHiBlue   => "\x1b[94m"
  | .fgHiYellow => "\x1b[93m"
  | .fgHiRed    => "\x1b[91m"
  | .faint      => "\x1b[2m"
  | .bold       => "\x1b[1m"
  | .faintBold  => "\x1b[2;1m"

/-- Modelled from the spec: `color.Color.Colorize`/`Sprint` wrap the text in
the style's escape sequence and a reset. -/
def colorize (c : ColorStyle) (s : String) : String := sgrCode c ++ s ++ "\x1b[0m"

/-! ## Value and attribute model (`log/slog` values as consumed by the handler)

`slog.Value` kinds used by the handler are modelled as a closed variant.
`KindAny` payloads are modelled by what `appendTextValue`/`appendValue`
observe about them: a `TextMarshaler` whose `MarshalText` returns text,
an error, or faults (panics); a byte slice; or an opaque value rendered by
`fmt` as `%+v` text.  `isNilPtr` models the `reflect` nil-pointer test in
`appendValue`'s recover block.  `KindTime`/`KindDuration`/`KindFloat64`/
`KindUint64` attribute values and `KindLogValuer` (lazy) resolution are not
needed by any claim and are omitted from the variant. -/

/-- Outcome of a `MarshalText` call. -/
inductive TMOutcome where
  | okM (text : String)
  | errM (msg : String)
  | panicM (msg : String)
  deriving DecidableEq

/-- A `KindAny` payload as observed by the rendering code. -/
inductive AnyValue where
  | marshaler (outcome : TMOutcome) (isNilPtr : Bool)
  | bytesV (data : String)
  | plain (text : String)
  deriving DecidableEq

/-- `slog.Value` (the kinds exercised by the handler).  `zero` is the zero
`slog.Value{}` (kind `KindAny`, `nil` payload), used by the empty-attribute
check. -/
inductive Value where
  | str (s : String)
  | int (n : Int)
  | boolV (b : Bool)
  | anyV (a : AnyValue)
  | zero
  | group (as : List (String × Value))

/-- `slog.Attr`: a key and a value. -/
abbrev Attr := String × Value

/- Group-nesting depth of a value; used to compute the recursion fuel for
the attribute walk (the Go recursion is bounded by this depth when no
`ReplaceAttr` hook rewrites values). -/
mutual
def valueDepth : Value → Nat
  | .group as => 1 + attrsDepth as
  | _ => 0
def attrsDepth : List (String × Value) → Nat
  | [] => 0
  | a :: rest => max (valueDepth a.2) (attrsDepth rest)
end

/-- `isEmptyGroup`: a group value with zero children. -/
def isEmptyGroup : Value → Bool
  | .group as => as.isEmpty
  | _ => false

/-- `countEmptyGroups`: the number of empty group values in the slice. -/
def countEmptyGroups : List Attr → Nat
  | [] => 0
  | a :: rest => (if isEmptyGroup a.2 then 1 else 0) + countEmptyGroups rest

/-- `Value.Equal(slog.Value{})` specialised to what `isEmpty` needs: the
zero value. -/
def isZeroValue : Value → Bool
  | .zero => true
  | _ => false

/-- `isEmpty`: an attribute with an empty key and the zero value. -/
def isEmptyAttr (a : Attr) : Bool := a.1 == "" && isZeroValue a.2

/-- `fmt.Sprint(a.Value.Any())` as used for context values.  The `fmt`
rendering of composite/opaque payloads is external to the repository and is
abstracted; every claim exercises only the string/int/bool cases. -/
def sprintValue : Value → String
  | .str s => s
  | .int n => toString n
  | .boolV b => if b then "true" else "false"
  | .zero => "<nil>"
  | .anyV (.plain t) => t
  | .anyV (.bytesV _) => "<bytes>"
  | .anyV (.marshaler _ _) => "<marshaler>"
  | .group _ => "<group>"

/-! ## Character classification and quoting (`needsQuoting`, `strconv.Quote`) -/

/-- `safeSet` from the source (copied there from `encoding/json/tables.go`):
true for every ASCII character except the control characters (0–31), the
double quote and the backslash.  Index is the character code `< 128`. -/
def safeSet (b : Nat) : Bool :=
  decide (32 ≤ b) && !(b == 34) && !(b == 92) && decide (b < 128)

/-- Model of `unicode.IsPrint` for the rune path of `needsQuoting` and for
`strconv.Quote`.  The ASCII range (which every claim exercises) is exact:
printable means `0x20–0x7e`.  Non-ASCII code points are classified printable:
the Go table lookup is external library data; the round-trip theorem below
holds for either classification of a non-ASCII rune. -/
def goIsPrint (c : Char) : Bool :=
  if c.toNat < 128 then decide (0x20 ≤ c.toNat) && decide (c.toNat ≤ 0x7e)
  else true

/-- Model of `unicode.IsSpace` for the rune path of `needsQuoting` (only
consulted for runes `≥ 0x80`); the non-ASCII Unicode space code points
(`U+0085`, `U+00A0`, the `Zs` class) are modelled by the Latin-1 two. -/
def goIsSpace (c : Char) : Bool :=
  c.toNat == 0x85 || c.toNat == 0xA0

/-- Per-rune body of the `needsQuoting` loop: for an ASCII byte, quote
anything except a backslash that is a space, an `=` or outside `safeSet`;
for a non-ASCII rune, quote spaces and non-printables.  (The
`utf8.RuneError` test of the source cannot fire on the valid scalar values
a `Char` ranges over.) -/
def charNeedsQuoting (c : Char) : Bool :=
  if c.toNat < 128 then
    !(c == '\\') && (c == ' ' || c == '=' || !safeSet c.toNat)
  else
    goIsSpace c || !goIsPrint c

/-- `needsQuoting` from the source: the empty string needs quoting, and
otherwise any rune triggering `charNeedsQuoting` does. -/
def needsQuoting (s : String) : Bool :=
  if s.length == 0 then true
  else s.data.any charNeedsQuoting

/-- `lowerhex` digit of `n % 16`. -/
def hexDigit (n : Nat) : Char :=
  if n < 10 then Char.ofNat (48 + n % 16)
  else Char.ofNat (97 + (n % 16 - 10))

/-- Fixed-width lower-case hex, most significant digit first
(`lowerhex[r>>s&0xF]` in the source, expressed with `/` and `%`). -/
def hexDigits (width : Nat) (n : Nat) : List Char :=
  match width with
  | 0 => []
  | w + 1 => hexDigit (n / 16 ^ w % 16) :: hexDigits w n

/-- `strconv.Quote` on one rune (Go `appendEscapedRune` with quote `"`,
neither ASCII-only nor graphic-only).  A Lean `Char` is always a valid rune,
so the `utf8.ValidRune` fallback cannot fire. -/
def quoteRune (c : Char) : List Char :=
  if c == '"' || c == '\\' then ['\\', c]
  else if goIsPrint c then [c]
  else if c == '\x07' then ['\\', 'a']
  else if c == '\x08' then ['\\', 'b']
  else if c == '\x0c' then ['\\', 'f']
  else if c == '\n' then ['\\', 'n']
  else if c == '\x0d' then ['\\', 'r']
  else if c == '\t' then ['\\', 't']
  else if c == '\x0b' then ['\\', 'v']
  else if c.toNat < 32 || c.toNat == 0x7f then '\\' :: 'x' :: hexDigits 2 c.toNat
  else if c.toNat < 0x10000 then '\\' :: 'u' :: hexDigits 4 c.toNat
  else '\\' :: 'U' :: hexDigits 8 c.toNat

/-- `strconv.Quote`: a double-quoted, escaped form of the string. -/
def goQuote (s : String) : String :=
  ⟨'"' :: s.data.flatMap quoteRune ++ ['"']⟩

/-! ## Time model (`time.Time` as UTC nanoseconds since the Unix epoch) -/

/-- A `time.Time` instant: UTC nanoseconds since 1970-01-01T00:00:00Z. -/
structure GoTime where
  ns : Int
  deriving DecidableEq

/-- `time.Time.Unix()`: whole seconds since the epoch (floor). -/
def GoTime.unixSec (t : GoTime) : Int := Int.fdiv t.ns 1000000000

/-- `time.Unix(sec, 0).IsZero()`: true exactly when the reconstructed instant
is January 1, year 1, 00:00:00 UTC. -/
def unixIsZeroTime (sec : Int) : Bool := sec == -62135596800

/-- `time.Duration` bounds (int64). -/
def maxDuration : Int := 9223372036854775807

def minDuration : Int := -9223372036854775808

/-- `val.Sub(lastTime)` where `lastTime = time.Unix(sec, 0)`: nanosecond
difference, saturating at the `time.Duration` bounds as Go `Sub` does. -/
def subNs (t : GoTime) (sec : Int) : Int :=
  let d := t.ns - sec * 1000000000
  if d > maxDuration then maxDuration
  else if d < minDuration then minDuration
  else d

/-- Proleptic-Gregorian leap year. -/
def isLeapYear (y : Int) : Bool :=
  (Int.emod y 4 == 0 && !(Int.emod y 100 == 0)) || Int.emod y 400 == 0

/-- Days before the first of month `m` (1–12) in a non-leap year. -/
def monthDaysBefore : Int → Int
  | 1 => 0 | 2 => 31 | 3 => 59 | 4 => 90 | 5 => 120 | 6 => 151
  | 7 => 181 | 8 => 212 | 9 => 243 | 10 => 273 | 11 => 304 | _ => 334

/-- Civil date (year, month, day) of a count of days since 1970-01-01,
proleptic Gregorian, UTC. -/
def civilFromDays (z0 : Int) : Int × Int × Int :=
  let z := z0 + 719468
  let era := Int.fdiv z 146097
  let doe := z - era * 146097
  let yoe := Int.fdiv (doe - Int.fdiv doe 1460 + Int.fdiv doe 36524 - Int.fdiv doe 146096) 365
  let doy := doe - (365 * yoe + Int.fdiv yoe 4 - Int.fdiv yoe 100)
  let mp := Int.fdiv (5 * doy + 2) 153
  let d := doy - Int.fdiv (153 * mp + 2) 5 + 1
  let m := mp + (if mp < 10 then 3 else -9)
  let y := yoe + era * 400 + (if m ≤ 2 then 1 else 0)
  (y, m, d)

/-- `time.Time.YearDay()` (1-based day of year, UTC) of an instant given in
seconds since the epoch. -/
def yearDayOfSec (sec : Int) : Int :=
  let (y, m, d) := civilFromDays (Int.fdiv sec 86400)
  d + monthDaysBefore m + (if decide (2 < m) && isLeapYear y then 1 else 0)

/-- `YearDay` of a `GoTime`. -/
def GoTime.yearDay (t : GoTime) : Int := yearDayOfSec (Int.fdiv t.ns 1000000000)

/-- Two-digit zero-padded decimal text of a nonnegative value. -/
def pad2 (n : Int) : String := if n < 10 then "0" ++ toString n else toString n

/-- Three-digit zero-padded decimal text of a nonnegative value. -/
def pad3 (n : Int) : String :=
  if n < 10 then "00" ++ toString n else if n < 100 then "0" ++ toString n else toString n

/-- Four-digit zero-padded decimal text of a nonnegative value. -/
def pad4 (n : Int) : String :=
  if n < 10 then "000" ++ toString n
  else if n < 100 then "00" ++ toString n
  else if n < 1000 then "0" ++ toString n
  else toString n

/-- `"15:04:05.000"` fields of an instant (UTC). -/
def clockText (t : GoTime) : String :=
  let sec := Int.fdiv t.ns 1000000000
  let sod := Int.emod sec 86400
  let ms := Int.fdiv (Int.emod t.ns 1000000000) 1000000
  pad2 (Int.fdiv sod 3600) ++ ":" ++ pad2 (Int.emod (Int.fdiv sod 60) 60) ++ ":" ++
    pad2 (Int.emod sod 60) ++ "." ++ pad3 ms

/-- `t.Format(MiniTimeFormat)` with `MiniTimeFormat = "15:04:05.000"`. -/
def formatMiniTime (t : GoTime) : String := clockText t

/-- `t.Format(TimeFormat)` with
`TimeFormat = "2006-01-02T15:04:05.000Z0700"`; the model renders UTC
instants, for which the `Z0700` zone field prints `Z`. -/
def formatTimeFull (t : GoTime) : String :=
  let (y, m, d) := civilFromDays (Int.fdiv (Int.fdiv t.ns 1000000000) 86400)
  pad4 y ++ "-" ++ pad2 m ++ "-" ++ pad2 d ++ "T" ++ clockText t ++ "Z"

/-! ## Handler state (`commonHandler`) -/

/-- The replace hook `opts.ReplaceAttr`: receives the open group names and
the (resolved) attribute. -/
abbrev RepFn := List String → Attr → Attr

/-- `commonHandler`.  `opts` is split into its used fields (`minLevel`
models `opts.Level` already resolved, defaulting to Info = 0; `addSource`
is carried but every claim leaves it false).  The output writer and the
shared mutex are dropped (rendering returns the line).  `lastTime` is the
`atomic.Int64` of Unix seconds — a per-struct value field in Go, hence a
plain field here.  The `map[string]bool` key sets and the
`map[string]string` context cache are modelled as lists (a `nil` map and an
empty map behave identically for every operation the code performs). -/
structure commonHandler where
  rep : Option RepFn
  minLevel : Int
  addSource : Bool
  preformattedAttrs : List Char
  groupPfx : String
  groups : List String
  nOpenGroups : Nat
  importantKeys : List String
  criticalKeys : List String
  contextKeys : List String
  contextValues : List (String × String)
  terminalWidth : Int
  lastTime : Int

/-- `commonHandler.clone`: the Go struct literal copies every field except
`contextValues` (deep-copied below it, which is value-identity here) and
`lastTime`, which the literal *omits* — Go zero-initialises it, so a clone
starts with `lastTime = 0`.  (`slices.Clip` only trims capacity.) -/
def commonHandler.clone (h : commonHandler) : commonHandler :=
  { rep := h.rep, minLevel := h.minLevel, addSource := h.addSource,
    preformattedAttrs := h.preformattedAttrs, groupPfx := h.groupPfx,
    groups := h.groups, nOpenGroups := h.nOpenGroups,
    importantKeys := h.importantKeys, criticalKeys := h.criticalKeys,
    contextKeys := h.contextKeys, contextValues := h.contextValues,
    terminalWidth := h.terminalWidth,
    lastTime := 0 }

/-- `commonHandler.enabled`. -/
def commonHandler.enabled (h : commonHandler) (l : Int) : Bool := h.minLevel ≤ l

/-- `commonHandler.withGroup`. -/
def commonHandler.withGroup (h : commonHandler) (name : String) : commonHandler :=
  { h.clone with groups := h.groups ++ [name] }

/-- Association-list lookup for the modelled Go maps. -/
def lookupAssoc (m : List (String × String)) (k : String) : Option String :=
  match m with
  | [] => none
  | (k', v) :: rest => if k' == k then some v else lookupAssoc rest k

/-- Association-list store (`m[k] = v`). -/
def setAssoc (m : List (String × String)) (k : String) (v : String) :
    List (String × String) :=
  match m with
  | [] => [(k, v)]
  | (k', v') :: rest => if k' == k then (k', v) :: rest else (k', v') :: setAssoc rest k v

/-- Go map read `m[k]` with the zero-value default `""`. -/
def lookupAssocD (m : List (String × String)) (k : String) : String :=
  (lookupAssoc m k).getD ""

/-! ## Render session (`handleState`) and its operations -/

/-- `slog.Record` as consumed by the handler: optional timestamp, level,
message, attribute list (`NumAttrs`/`Attrs` are the length and the
iteration).  Source locations (`PC`) are not modelled (`AddSource` stays
false in every claim). -/
structure Record where
  time : Option GoTime
  level : Int
  msg : String
  attrs : List Attr

/-- `handleState`: the per-record session.  `buf` and `pfx` are the output
and prefix buffers; `groups` is the pool-allocated group-name slice, present
exactly when a `ReplaceAttr` hook is configured (`nil` otherwise, as in the
source); `freeBuf` is pool management and is dropped. -/
structure HState where
  buf : List Char
  sep : String
  pfx : List Char
  groups : Option (List String)
  linePos : Int
  needsIndent : Bool

/-- `commonHandler.newHandleState`. -/
def commonHandler.newHandleState (h : commonHandler) (buf : List Char) (sep : String) :
    HState :=
  { buf := buf, sep := sep, pfx := [],
    groups := if h.rep.isSome then some (h.groups.take h.nOpenGroups) else none,
    linePos := 0, needsIndent := false }

/-- `attrSep`: the separator between attributes. -/
def commonHandler.attrSep (_ : commonHandler) : String := " "

/-- `calculateVisibleLength`: visible width of a string, skipping from each
ESC byte to the next `m`. -/
def calculateVisibleLength (s : String) : Int :=
  (s.data.foldl
    (fun (st : Bool × Int) c =>
      if c == '\x1b' then (true, st.2)
      else if st.1 && c == 'm' then (false, st.2)
      else if !st.1 then (st.1, st.2 + 1)
      else st)
    (false, 0)).2

/-- `handleState.appendRawString`. -/
def appendRawString (h : commonHandler) (s : HState) (str : String) : HState :=
  let s :=
    if s.needsIndent && decide (h.terminalWidth > 0) then
      { s with buf := s.buf ++ "    ".data, linePos := 4, needsIndent := false }
    else s
  { s with buf := s.buf ++ str.data, linePos := s.linePos + calculateVisibleLength str }

/-- `handleState.appendKey`: separator, group prefix, priority-styled key
and a bold `": "`.  Critical keys dominate important keys dominate the
normal (faint bold) style. -/
def appendKey (h : commonHandler) (s : HState) (key : String) : HState :=
  let s :=
    if s.sep ≠ "" then
      { s with buf := s.buf ++ s.sep.data, linePos := s.linePos + calculateVisibleLength s.sep }
    else s
  let visibleKeyLen : Int := (key.length : Int) + 2
  let styled :=
    if h.criticalKeys.contains key then colorize .fgHiRed key ++ colorize .bold ": "
    else if h.importantKeys.contains key then colorize .fgHiYellow key ++ colorize .bold ": "
    else colorize .faintBold key ++ colorize .bold ": "
  let s :=
    if s.pfx.length > 0 then
      { s with buf := s.buf ++ s.pfx ++ styled.data,
               linePos := s.linePos + (s.pfx.length : Int) + visibleKeyLen }
    else
      { s with buf := s.buf ++ styled.data, linePos := s.linePos + visibleKeyLen }
  { s with sep := h.attrSep }

/-- `needsEscaping` (for the indented multi-line blocks). -/
def needsEscaping (str : String) : Bool :=
  str.data.any (fun c => !goIsPrint c || c == '"')

/-- One rune of `writeEscapedForOutput`'s escaping loop.  Note the source
writes a *raw tab* for `'\t'` (its case arm uses the interpreted string
`"\t"`, unlike the quoted escapes of its neighbours). -/
def escapeRune (escapeQuotes : Bool) (c : Char) : List Char :=
  if escapeQuotes && c == '"' then ['\\', '"']
  else if goIsPrint c then [c]
  else if c == '\x07' then ['\\', 'a']
  else if c == '\x08' then ['\\', 'b']
  else if c == '\x0c' then ['\\', 'f']
  else if c == '\n' then ['\\', 'n']
  else if c == '\x0d' then ['\\', 'r']
  else if c == '\t' then ['\t']
  else if c == '\x0b' then ['\\', 'v']
  else if c.toNat < 32 then '\\' :: 'x' :: hexDigits 2 c.toNat
  else if c.toNat < 0x10000 then '\\' :: 'u' :: hexDigits 4 c.toNat
  else '\\' :: 'U' :: hexDigits 8 c.toNat

/-- `writeEscapedForOutput`: pass printable text through, otherwise append
the escaped form (built in a scratch buffer in the source) in one
`appendRawString` call. -/
def writeEscapedForOutput (h : commonHandler) (s : HState) (str : String)
    (escapeQuotes : Bool) : HState :=
  if !needsEscaping str then appendRawString h s str
  else appendRawString h s ⟨str.data.flatMap (escapeRune escapeQuotes)⟩

/-- The segments of `writeIndent`'s loop: every segment before a newline is
written as indent + escaped text + newline; the final segment only when
nonempty. -/
def writeIndentParts (h : commonHandler) (s : HState) (indent : String) :
    List String → HState
  | [] => s
  | [last] =>
      if last == "" then s
      else appendRawString h (writeEscapedForOutput h (appendRawString h s indent) last false) "\n"
  | p :: rest =>
      writeIndentParts h
        (appendRawString h (writeEscapedForOutput h (appendRawString h s indent) p false) "\n")
        indent rest

/-- `writeIndent`. -/
def writeIndent (h : commonHandler) (s : HState) (str indent : String) : HState :=
  writeIndentParts h s indent (str.splitOn "\n")

/-- `estimateValueLength` (the kinds present in the model; the source's
float/duration/time arms concern kinds the model omits, and everything else
estimates 20). -/
def estimateValueLength : Value → Int
  | .str s => if needsQuoting s then ((goQuote s).length : Int) else (s.length : Int)
  | .int n => ((toString n).length : Int)
  | .boolV b => if b then 4 else 5
  | _ => 20

/-- `handleState.appendString`: wrap if the value would overflow a known
terminal width, then multi-line block, quoted, or raw text. -/
def appendString (h : commonHandler) (s : HState) (str : String) : HState :=
  let valueLen : Int :=
    if needsQuoting str then ((goQuote str).length : Int) else (str.length : Int)
  let s :=
    if decide (h.terminalWidth > 0) && decide (s.linePos > 0) &&
        decide (s.linePos + valueLen > h.terminalWidth) then
      { s with buf := s.buf ++ ("\n" ++ "    ").data, linePos := 4 }
    else s
  if str.data.contains '\n' then
    let s := appendRawString h s "\n"
    let s := writeIndent h s str "  │ "
    { s with linePos := 0 }
  else if needsQuoting str then
    { s with buf := s.buf ++ (goQuote str).data, linePos := s.linePos + ((goQuote str).length : Int) }
  else
    { s with buf := s.buf ++ str.data, linePos := s.linePos + (str.length : Int) }

/-- `handleState.appendError`: `fmt.Sprintf("!ERROR:%v", err)` through
`appendString`. -/
def appendError (h : commonHandler) (s : HState) (err : String) : HState :=
  appendString h s ("!ERROR:" ++ err)

/-- Result of `appendTextValue`: normal return, a `MarshalText` error, or a
panic propagating out of the call (caught by `appendValue`'s recover). -/
inductive TVRes where
  | okR
  | errR (e : String)
  | panicR (msg : String)

/-- The free function `appendValue(v, dst)` of the source (raw `fmt`-style
bytes for the non-string kinds; named `appendValueRaw` here to avoid the
name clash Go resolves by method receiver).  The group arm's `fmt.Append`
of a child slice is external `fmt` behaviour, abstracted. -/
def appendValueRaw : Value → List Char
  | .str s => s.data
  | .int n => (toString n).data
  | .boolV b => (if b then "true" else "false").data
  | .group _ => "<group>".data
  | .anyV a => (sprintValue (.anyV a)).data
  | .zero => "<nil>".data

/-- `appendTextValue`: strings via `appendString` (a containing-newline
string appends only `"\n  "` here), `TextMarshaler` results, quoted byte
slices (written straight to the buffer), `%+v` text for other `KindAny`
payloads (`nil` prints `<nil>`), and raw bytes for the remaining kinds. -/
def appendTextValue (h : commonHandler) (s : HState) : Value → HState × TVRes
  | .str str =>
      if str.data.contains '\n' then (appendRawString h s "\n  ", .okR)
      else (appendString h s str, .okR)
  | .anyV (.marshaler outcome _) =>
      match outcome with
      | .okM data => (appendString h s data, .okR)
      | .errM e => (s, .errR e)
      | .panicM m => (s, .panicR m)
  | .anyV (.bytesV bs) => ({ s with buf := s.buf ++ (goQuote bs).data }, .okR)
  | .anyV (.plain t) => (appendString h s t, .okR)
  | .zero => (appendString h s "<nil>", .okR)
  | v => ({ s with buf := s.buf ++ appendValueRaw v }, .okR)

/-- The `reflect` nil-pointer test in `appendValue`'s recover block. -/
def valueIsNilPtr : Value → Bool
  | .anyV (.marshaler _ nilp) => nilp
  | _ => false

/-- `handleState.appendValue`: render the value; a returned error becomes an
`!ERROR:` placeholder, a panic is recovered into `<nil>` (nil pointer) or a
`!PANIC: ` placeholder. -/
def appendValue (h : commonHandler) (s : HState) (v : Value) : HState :=
  match appendTextValue h s v with
  | (s', .okR) => s'
  | (s', .errR e) => appendError h s' e
  | (s', .panicR m) =>
      if valueIsNilPtr v then appendString h s' "<nil>"
      else appendString h s' ("!PANIC: " ++ m)

/-- `handleState.openGroup`. -/
def openGroup (s : HState) (name : String) : HState :=
  { s with pfx := s.pfx ++ name.data ++ ['.'],
           groups := s.groups.map (fun gs => gs ++ [name]) }

/-- `handleState.closeGroup`. -/
def closeGroup (s : HState) (name : String) : HState :=
  { s with pfx := s.pfx.take (s.pfx.length - (name.length + 1)),
           sep := " ",
           groups := s.groups.map (fun gs => gs.dropLast) }

/-- `handleState.openGroups`: open the groups not yet in the pre-formatted
prefix. -/
def openGroups (h : commonHandler) (s : HState) : HState :=
  (h.groups.drop h.nOpenGroups).foldl openGroup s

/-- Group-kind test (`a.Value.Kind() == slog.KindGroup`). -/
def isGroupValue : Value → Bool
  | .group _ => true
  | _ => false

/-- The `ReplaceAttr` application step of `appendAttr`: the hook runs on
resolved non-group values only, receiving the open group names (`nil` group
slice passes an empty slice). -/
def applyRep (h : commonHandler) (gs : Option (List String)) (a : Attr) : Attr :=
  match h.rep with
  | some rep => if isGroupValue a.2 then a else rep (gs.getD []) a
  | none => a

/-- `handleState.appendAttr`, fuel-indexed.  The fuel only bounds the
group-nesting recursion (which a pathological `ReplaceAttr` hook could make
unbounded in Go); every call site supplies fuel exceeding the value depth,
so the fuel-exhaustion arm is never reached there.  Steps, in source order:
context-key suppression when the group slice is `nil` (no hook) or empty;
resolution (the identity — no lazy values in the model); the hook for
non-group values; empty-attribute elision; group descent with rollback of
ultimately-empty groups; the multi-line string block; the width-based wrap;
key and value. -/
def appendAttrF : Nat → commonHandler → HState → Attr → HState × Bool
  | 0, _, s, _ => (s, false)
  | fuel + 1, h, s, a =>
    if h.contextKeys.length > 0 &&
        (match s.groups with | none => true | some gs => gs.isEmpty) &&
        h.contextKeys.contains a.1 then
      (s, false)
    else
      let a := applyRep h s.groups a
      if isEmptyAttr a then (s, false)
      else
        match a.2 with
        | .group attrs =>
            if attrs.length > 0 then
              let pos := s.buf.length
              let s1 := if a.1 ≠ "" then openGroup s a.1 else s
              let fr := attrs.foldl
                (fun (acc : HState × Bool) a' =>
                  let r := appendAttrF fuel h acc.1 a'
                  (r.1, acc.2 || r.2))
                (s1, false)
              if !fr.2 then ({ fr.1 with buf := fr.1.buf.take pos }, false)
              else (if a.1 ≠ "" then closeGroup fr.1 a.1 else fr.1, true)
            else (s, true)
        | v =>
            let strNL := match v with
              | .str str => str.data.contains '\n'
              | _ => false
            if strNL then
              let s := appendKey h s a.1
              let s := appendRawString h s "\n"
              let s := writeIndent h s (match v with | .str str => str | _ => "") "  │ "
              (s, true)
            else
              let s :=
                if decide (h.terminalWidth > 0) && decide (s.linePos > 4) then
                  let sepLen := if s.sep ≠ "" then calculateVisibleLength s.sep else 0
                  let keyLen : Int := (a.1.length : Int) + 2
                  let valueLen := estimateValueLength v
                  if decide (s.linePos + (sepLen + keyLen + valueLen) > h.terminalWidth) then
                    { s with buf := s.buf ++ ("\n" ++ "    ").data, linePos := 4, sep := "" }
                  else s
                else s
              let s := appendKey h s a.1
              let s := appendValue h s v
              (s, true)

/-- `handleState.appendAttrs`: append a slice, reporting whether anything
was appended. -/
def appendAttrsF (fuel : Nat) (h : commonHandler) (s : HState) (as : List Attr) :
    HState × Bool :=
  as.foldl
    (fun (acc : HState × Bool) a =>
      let r := appendAttrF fuel h acc.1 a
      (r.1, acc.2 || r.2))
    (s, false)

/-- Fuel sufficient for a record's attribute list when the hook does not
deepen values. -/
def attrsFuel (as : List Attr) : Nat := 1 + attrsDepth as

/-- The record-attribute block of `appendNonBuiltIns`: extend the prefix by
the pre-formatted group prefix, open the remaining groups, walk the
record's attributes, and roll the buffer back to the remembered position if
every attribute was dropped. -/
def recordAttrsWalk (h : commonHandler) (s : HState) (r : Record) : HState :=
  let s := { s with pfx := s.pfx ++ h.groupPfx.data }
  let pos := s.buf.length
  let s := openGroups h s
  let fr := appendAttrsF (attrsFuel r.attrs) h s r.attrs
  if !fr.2 then { fr.1 with buf := fr.1.buf.take pos } else fr.1

/-- `handleState.appendNonBuiltIns`: pre-formatted bytes first, then the
record's attributes (only when the record has any). -/
def appendNonBuiltIns (h : commonHandler) (s : HState) (r : Record) : HState :=
  let s :=
    if h.preformattedAttrs.length > 0 then
      { s with buf := s.buf ++ s.sep.data ++ h.preformattedAttrs, sep := h.attrSep }
    else s
  if r.attrs.length > 0 then recordAttrsWalk h s r
  else s

/-! ## Configuration: `withAttrs` -/

/-- `commonHandler.withAttrs`: no-op when every attribute is an empty group
(returning the *same* handler); otherwise clone, populate the context-value
cache (first non-missing value wins), filter context-key attributes out, and
pre-format the survivors into `preformattedAttrs`, rolling back when nothing
was appended and otherwise remembering the new prefix and open-group
count. -/
def commonHandler.withAttrs (h : commonHandler) (as : List Attr) : commonHandler :=
  if countEmptyGroups as = as.length then h
  else
    let h2 := h.clone
    let h2 :=
      if h2.contextKeys.length > 0 then
        { h2 with contextValues :=
            (as.foldl
              (fun cv a =>
                h2.contextKeys.foldl
                  (fun cv ck =>
                    if a.1 == ck && lookupAssocD cv ck == "" then
                      setAssoc cv ck (sprintValue a.2)
                    else cv)
                  cv)
              h2.contextValues) }
      else h2
    let as2 :=
      if h2.contextKeys.length > 0 then
        as.filter (fun a => !h2.contextKeys.contains a.1)
      else as
    let st := h2.newHandleState h2.preformattedAttrs ""
    let st := { st with pfx := st.pfx ++ h.groupPfx.data }
    let st := if h2.preformattedAttrs.length > 0 then { st with sep := h.attrSep } else st
    let pos := st.buf.length
    let st := openGroups h2 st
    let fr := appendAttrsF (attrsFuel as2) h2 st as2
    if !fr.2 then { h2 with preformattedAttrs := fr.1.buf.take pos }
    else
      { h2 with preformattedAttrs := fr.1.buf, groupPfx := ⟨fr.1.pfx⟩,
                nOpenGroups := h2.groups.length }

/-! ## Level rendering -/

/-- `_levelToName`. -/
def levelToName (l : Int) : Option String :=
  if l == -8 then some " [TRACE] "
  else if l == -4 then some " [DEBUG] "
  else if l == 0 then some " [INFO]  "
  else if l == 4 then some " [WARN]  "
  else if l == 8 then some " [ERROR] "
  else none

/-- `_levelToColor`. -/
def levelToColor (l : Int) : Option ColorStyle :=
  if l == -8 then some .fgHiGreen
  else if l == -4 then some .fgHiWhite
  else if l == 0 then some .fgHiBlue
  else if l == 4 then some .fgHiYellow
  else if l == 8 then some .fgHiRed
  else none

/-- The `%+d` suffix of `slog.Level.String` (empty when the offset is 0). -/
def levelSuffix (v : Int) : String :=
  if v == 0 then "" else if v > 0 then "+" ++ toString v else toString v

/-- `slog.Level.String()` (the fallback for levels outside the name map). -/
def goLevelString (l : Int) : String :=
  if l < 0 then "DEBUG" ++ levelSuffix (l + 4)
  else if l < 4 then "INFO" ++ levelSuffix l
  else if l < 8 then "WARN" ++ levelSuffix (l - 4)
  else "ERROR" ++ levelSuffix (l - 8)

/-- The level text of `handle`: the bracketed name when mapped, colored when
the level has a color. -/
def levelDisplay (l : Int) : String :=
  let str := match levelToName l with | some s => s | none => goLevelString l
  match levelToColor l with | some c => colorize c str | none => str

/-! ## The rendering pipeline (`commonHandler.handle`, `ReplaceAttr == nil`) -/

/-- `state.appendShortTime`: the *full* `TimeFormat` (despite the name). -/
def appendShortTime (_h : commonHandler) (s : HState) (t : GoTime) : HState :=
  let str := formatTimeFull t
  { s with buf := s.buf ++ str.data, linePos := s.linePos + (str.length : Int) }

/-- `state.appendMiniTime`: the compact `MiniTimeFormat`. -/
def appendMiniTime (_h : commonHandler) (s : HState) (t : GoTime) : HState :=
  let str := formatMiniTime t
  { s with buf := s.buf ++ str.data, linePos := s.linePos + (str.length : Int) }

/-- The time block of `handle` (`ReplaceAttr == nil`): compact
`MiniTimeFormat` when the reconstructed previous time is the zero time, or
less than one hour has elapsed, or the day-of-year differs; the full
`TimeFormat` otherwise. -/
def timeStep (h : commonHandler) (s : HState) (r : Record) : HState :=
  match r.time with
  | none => s
  | some t =>
      if unixIsZeroTime h.lastTime || decide (subNs t h.lastTime < 3600 * 1000000000) ||
          !(t.yearDay == yearDayOfSec h.lastTime) then
        appendMiniTime h s t
      else appendShortTime h s t

/-- The `h.lastTime.Store(val.Unix())` of the time block. -/
def storeLastTime (h : commonHandler) (r : Record) : commonHandler :=
  match r.time with
  | none => h
  | some t => { h with lastTime := t.unixSec }

/-- The context-values block of `handle`: collect record values, resolve
each configured key cache-first, and emit the faint space-joined parts
followed by a space. -/
def contextStep (h : commonHandler) (s : HState) (r : Record) : HState :=
  if h.contextKeys.length > 0 then
    let recordValues :=
      r.attrs.foldl
        (fun rv a =>
          h.contextKeys.foldl
            (fun rv ck => if a.1 == ck then setAssoc rv ck (sprintValue a.2) else rv)
            rv)
        []
    let contextParts :=
      h.contextKeys.foldl
        (fun ps ck =>
          match lookupAssoc h.contextValues ck with
          | some v =>
              if v ≠ "" then ps ++ [v]
              else
                match lookupAssoc recordValues ck with
                | some rv => ps ++ [rv]
                | none => ps
          | none =>
              match lookupAssoc recordValues ck with
              | some rv => ps ++ [rv]
              | none => ps)
        []
    if contextParts.length > 0 then
      appendRawString h (appendRawString h s (colorize .faint (String.intercalate " " contextParts))) " "
    else s
  else s

/-- The module block of `handle`. -/
def moduleStep (h : commonHandler) (s : HState) (module : String) : HState :=
  if module ≠ "" then
    appendRawString h (appendRawString h s (colorize .faint module)) " "
  else s

/-- The separator-marker block of `handle` (`ReplaceAttr == nil`): emitted
when the record has attributes or pre-formatted bytes exist. -/
def sepStep (h : commonHandler) (s : HState) (r : Record) : HState :=
  if decide (0 < r.attrs.length) || decide (0 < h.preformattedAttrs.length) then
    appendRawString h s " │ "
  else s

/-- The built-in prefix of `commonHandler.handle` (through the separator
marker), specialised to `opts.ReplaceAttr == nil`: time, level, context
values, module, message, marker, in source order.  Source-location emission
(`opts.AddSource`) is omitted: `addSource` is false in every theorem.
Returns the session state and the handler with its `lastTime` store
applied. -/
def handleBuiltins (h : commonHandler) (module : String) (r : Record) :
    HState × commonHandler :=
  let s := h.newHandleState [] ""
  let s := timeStep h s r
  let s := appendRawString h s (levelDisplay r.level)
  let s := contextStep h s r
  let s := moduleStep h s module
  let s := appendRawString h s r.msg
  let s := sepStep h s r
  (s, storeLastTime h r)

/-- `commonHandler.handle` specialised to `opts.ReplaceAttr == nil` (the
branch every handle-level claim is about; under it the built-ins'
group-slice swap is the identity because the slice is `nil`): the built-in
prefix, then the non-built-in attributes, then the terminating newline.
Returns the rendered line (written to the sink under the shared mutex in
Go) and the handler with its `lastTime` store applied. -/
def handleNoRep (h : commonHandler) (module : String) (r : Record) :
    String × commonHandler :=
  let sh := handleBuiltins h module r
  let s := appendNonBuiltIns h sh.1 r
  (⟨s.buf ++ ['\n']⟩, sh.2)

/-! ## The text handler (`TextHandler`) -/

/-- `TextHandler`: the common handler plus the accumulated module name. -/
structure TextHandler where
  common : commonHandler
  module : String

/-- `ModuleKey`. -/
def ModuleKey : String := "module"

/-- `a.Value.Kind() == slog.KindString`. -/
def isStringValue : Value → Bool
  | .str _ => true
  | _ => false

/-- `a.Value.String()` for a string-kind value. -/
def valueString : Value → String
  | .str s => s
  | _ => ""

/-- `TextHandler.WithAttrs`: fold string-valued `module` attributes into the
module name (dot-joined once a module name exists) and bind the rest. -/
def TextHandler.WithAttrs (h : TextHandler) (attrs : List Attr) : TextHandler :=
  let fold := attrs.foldl
    (fun (acc : String × List Attr) a =>
      if a.1 == ModuleKey && isStringValue a.2 then
        (if acc.1 == "" then valueString a.2 else acc.1 ++ "." ++ valueString a.2, acc.2)
      else (acc.1, acc.2 ++ [a]))
    (h.module, [])
  { common := h.common.withAttrs fold.2, module := fold.1 }

/-- `TextHandler.WithGroup`. -/
def TextHandler.WithGroup (h : TextHandler) (name : String) : TextHandler :=
  { common := h.common.withGroup name, module := h.module }

/-- `TextHandler.Handle` (the `ReplaceAttr == nil` case, like
`handleNoRep`). -/
def TextHandler.Handle (h : TextHandler) (r : Record) : String × TextHandler :=
  let o := handleNoRep h.common h.module r
  (o.1, { common := o.2, module := h.module })

/-- A plain handler: no hook, Debug level, no key sets, no width (as built
by `New` on a non-terminal writer with no options). -/
def baseHandler : commonHandler :=
  { rep := none, minLevel := -4, addSource := false, preformattedAttrs := [],
    groupPfx := "", groups := [], nOpenGroups := 0, importantKeys := [],
    criticalKeys := [], contextKeys := [], contextValues := [],
    terminalWidth := 0, lastTime := 0 }

/-- The identity `ReplaceAttr` hook: the simplest non-nil hook, used to
exercise the code paths that depend only on whether a hook is configured. -/
def idRep : RepFn := fun _ a => a

/-! ## Unquoting (`strconv.Unquote`, the inverse used by the round-trip
claim; external standard-library behaviour modelled from its contract) -/

/-- Hex digit value. -/
def hexVal (c : Char) : Option Nat :=
  if '0' ≤ c ∧ c ≤ '9' then some (c.toNat - 48)
  else if 'a' ≤ c ∧ c ≤ 'f' then some (c.toNat - 97 + 10)
  else if 'A' ≤ c ∧ c ≤ 'F' then some (c.toNat - 65 + 10)
  else none

/-- Octal digit value. -/
def octVal (c : Char) : Option Nat :=
  if '0' ≤ c ∧ c ≤ '7' then some (c.toNat - 48) else none

/-- Parse exactly `w` hex digits, most significant first. -/
def parseHex : Nat → List Char → Option (Nat × List Char)
  | 0, rest => some (0, rest)
  | _ + 1, [] => none
  | w + 1, c :: rest =>
      match hexVal c with
      | none => none
      | some d =>
          match parseHex w rest with
          | none => none
          | some (n, rest') => some (d * 16 ^ w + n, rest')

/-- `utf8.ValidRune` on a code point. -/
def isValidRuneNat (n : Nat) : Bool :=
  decide (n < 0xD800) || (decide (0xE000 ≤ n) && decide (n < 0x110000))

/-- `strconv.UnquoteChar` with quote `"`: one source character — a plain
rune (not a quote, not a backslash), or a backslash escape (named, `\x`,
`\u`, `\U`, octal, `\\`, `\"`). -/
def unquoteChar : List Char → Option (Char × List Char)
  | [] => none
  | c :: rest =>
    if c == '"' then none
    else if !(c == '\\') then some (c, rest)
    else
      match rest with
      | [] => none
      | e :: rest' =>
        if e == 'a' then some ('\x07', rest')
        else if e == 'b' then some ('\x08', rest')
        else if e == 'f' then some ('\x0c', rest')
        else if e == 'n' then some ('\n', rest')
        else if e == 'r' then some ('\x0d', rest')
        else if e == 't' then some ('\t', rest')
        else if e == 'v' then some ('\x0b', rest')
        else if e == 'x' then
          match parseHex 2 rest' with
          | some (n, rest'') => some (Char.ofNat n, rest'')
          | none => none
        else if e == 'u' then
          match parseHex 4 rest' with
          | some (n, rest'') =>
              if isValidRuneNat n then some (Char.ofNat n, rest'') else none
          | none => none
        else if e == 'U' then
          match parseHex 8 rest' with
          | some (n, rest'') =>
              if isValidRuneNat n then some (Char.ofNat n, rest'') else none
          | none => none
        else if e == '\\' then some ('\\', rest')
        else if e == '"' then some ('"', rest')
        else
          match octVal e, rest' with
          | some d1, c2 :: c3 :: rest'' =>
              (match octVal c2, octVal c3 with
               | some d2, some d3 =>
                   let v := d1 * 64 + d2 * 8 + d3
                   if v < 256 then some (Char.ofNat v, rest'') else none
               | _, _ => none)
          | _, _ => none

/-- The body loop of `strconv.Unquote` (fuel is an upper bound on the number
of decoded characters; each step consumes at least one source character, so
the body's length suffices). -/
def unquoteBody : Nat → List Char → Option (List Char)
  | _, [] => some []
  | 0, _ :: _ => none
  | f + 1, c :: cs =>
      match unquoteChar (c :: cs) with
      | none => none
      | some (ch, rest) => (unquoteBody f rest).map (ch :: ·)

/-- `strconv.Unquote` of a double-quoted string: strip the quotes, reject a
raw newline inside, decode the body. -/
def goUnquote (s : String) : Option String :=
  match s.data with
  | '"' :: rest =>
      match rest.getLast? with
      | some '"' =>
          let body := rest.dropLast
          if body.contains '\n' then none
          else (unquoteBody body.length body).map (fun l => ⟨l⟩)
      | _ => none
  | _ => none

/-! ## Display form of the rendered line

The imperative pipeline of `handle` is proved below to equal the
concatenation of the following parts; they name the same computations the
pipeline performs, so that theorems can speak about the position of the
message, the module name and the separator marker in the output. -/

/-- The time field of the line: compact `MiniTimeFormat` under the source's
condition, full `TimeFormat` otherwise, nothing when the record has no
timestamp. -/
def timeText (h : commonHandler) (r : Record) : List Char :=
  match r.time with
  | none => []
  | some t =>
      if unixIsZeroTime h.lastTime || decide (subNs t h.lastTime < 3600 * 1000000000) ||
          !(t.yearDay == yearDayOfSec h.lastTime) then
        (formatMiniTime t).data
      else (formatTimeFull t).data

/-- The context-values field of the line (resolved cache-then-record, in
configured key order, faint-styled, space-joined, trailing space). -/
def contextText (h : commonHandler) (r : Record) : List Char :=
  if h.contextKeys.length > 0 then
    let recordValues :=
      r.attrs.foldl
        (fun rv a =>
          h.contextKeys.foldl
            (fun rv ck => if a.1 == ck then setAssoc rv ck (sprintValue a.2) else rv)
            rv)
        []
    let contextParts :=
      h.contextKeys.foldl
        (fun ps ck =>
          match lookupAssoc h.contextValues ck with
          | some v =>
              if v ≠ "" then ps ++ [v]
              else
                match lookupAssoc recordValues ck with
                | some rv => ps ++ [rv]
                | none => ps
          | none =>
              match lookupAssoc recordValues ck with
              | some rv => ps ++ [rv]
              | none => ps)
        []
    if contextParts.length > 0 then
      (colorize .faint (String.intercalate " " contextParts)).data ++ " ".data
    else []
  else []

/-- The module field of the line. -/
def moduleText (module : String) : List Char :=
  if module ≠ "" then (colorize .faint module).data ++ " ".data else []

/-- Everything up to and including the message. -/
def builtinsText (h : commonHandler) (module : String) (r : Record) : List Char :=
  timeText h r ++ (levelDisplay r.level).data ++ contextText h r ++
    moduleText module ++ r.msg.data

/-- The separator marker, emitted under the source's condition: the record
has at least one attribute or pre-formatted bytes exist. -/
def sepText (h : commonHandler) (r : Record) : List Char :=
  if decide (0 < r.attrs.length) || decide (0 < h.preformattedAttrs.length) then
    " │ ".data
  else []

/-! ## Helper lemmas -/

lemma countEmptyGroups_le (as : List Attr) : countEmptyGroups as ≤ as.length := by
  induction as with
  | nil => simp [countEmptyGroups]
  | cons a rest ih => simp only [countEmptyGroups, List.length_cons]; split <;> omega

lemma countEmptyGroups_eq_length (as : List Attr)
    (hall : ∀ a ∈ as, isEmptyGroup a.2 = true) :
    countEmptyGroups as = as.length := by
  induction as with
  | nil => simp [countEmptyGroups]
  | cons a rest ih =>
      have ha := hall a (by simp)
      have hr := ih (fun x hx => hall x (by simp [hx]))
      simp [countEmptyGroups, ha, hr]
      omega

/-! ## C1 — time format selection -/

/-- C1: evaluation of the time-format selection at the inputs where the code
diverges from the claim.  A fresh handler's first record (stored previous
time 0, reconstructed as 1970-01-01, whose `IsZero()` is false) renders in
the *compact* `15:04:05.000` form, not the full form the claim requires; a
record rendered 26 hours after the previous one — on the next calendar
day — also renders in the compact form (the `val.YearDay() !=
lastTime.YearDay()` disjunct selects `appendMiniTime`); only a gap of at
least one hour *within the same calendar day* produces the full
`2006-01-02T15:04:05.000Z0700` form. -/
theorem time_format_selection_evaluated :
    ((handleNoRep baseHandler ""
        { time := some ⟨1710489600000000000⟩, level := 0, msg := "m1", attrs := [] }).1 =
      "08:00:00.000\x1b[94m [INFO]  \x1b[0mm1\n") ∧
    ((handleNoRep (handleNoRep baseHandler ""
        { time := some ⟨1710489600000000000⟩, level := 0, msg := "m1", attrs := [] }).2 ""
        { time := some ⟨1710583200000000000⟩, level := 0, msg := "m2", attrs := [] }).1 =
      "10:00:00.000\x1b[94m [INFO]  \x1b[0mm2\n") ∧
    ((handleNoRep (handleNoRep baseHandler ""
        { time := some ⟨1710489600000000000⟩, level := 0, msg := "m1", attrs := [] }).2 ""
        { time := some ⟨1710496800000000000⟩, level := 0, msg := "m3", attrs := [] }).1 =
      "2024-03-15T10:00:00.000Z\x1b[94m [INFO]  \x1b[0mm3\n") := by
  refine ⟨by decide, by decide, by decide⟩

/-! ## C3 — the previous timestamp is not shared with derived handlers -/

/-- C3 counterexample: after the original handler renders a record at
2024-03-15T08:00:00Z its stored previous timestamp is 1710489600, but a
handler derived from it by `withGroup` (or by `withAttrs` with a non-empty
bind) has previous timestamp 0 — the clone does not copy (let alone share)
the `lastTime` cell, so the derived handler's first record observes zero,
contradicting the claim. -/
theorem lastTime_not_shared_counterexample :
    ((handleNoRep baseHandler ""
        { time := some ⟨1710489600000000000⟩, level := 0, msg := "m", attrs := [] }).2.lastTime =
      1710489600) ∧
    (((handleNoRep baseHandler ""
        { time := some ⟨1710489600000000000⟩, level := 0, msg := "m", attrs := [] }).2.withGroup
        "g").lastTime = 0) ∧
    (((handleNoRep baseHandler ""
        { time := some ⟨1710489600000000000⟩, level := 0, msg := "m", attrs := [] }).2.withAttrs
        [("a", Value.str "b")]).lastTime = 0) ∧
    ((1710489600 : Int) ≠ 0) := by
  refine ⟨by decide, by decide, by decide, by decide⟩

/-- C3 amended: deriving a handler resets the previous-timestamp state to
zero.  `clone` (used by both `withGroup` and every non-no-op `withAttrs`)
omits the atomic `lastTime` field from its struct literal, so the derived
handler starts from Go's zero value; continuity is *not* inherited. -/
theorem clone_resets_lastTime (h : commonHandler) (name : String) (as : List Attr)
    (hne : countEmptyGroups as ≠ as.length) :
    (h.withGroup name).lastTime = 0 ∧ (h.withAttrs as).lastTime = 0 := by
  constructor
  · rfl
  · unfold commonHandler.withAttrs
    rw [if_neg hne]
    dsimp only
    repeat' split
    all_goals rfl

/-- C3 amended, witness: a handler whose previous timestamp is 42 derives
handlers whose previous timestamp is 0. -/
theorem clone_resets_lastTime_witness :
    countEmptyGroups [(("a", Value.str "b") : Attr)] ≠ [(("a", Value.str "b") : Attr)].length ∧
    (({ baseHandler with lastTime := 42 } : commonHandler).withGroup "g").lastTime = 0 ∧
    (({ baseHandler with lastTime := 42 } : commonHandler).withAttrs
      [("a", Value.str "b")]).lastTime = 0 := by
  refine ⟨by decide, ?_, ?_⟩
  · exact (clone_resets_lastTime { baseHandler with lastTime := 42 } "g"
      [("a", Value.str "b")] (by decide)).1
  · exact (clone_resets_lastTime { baseHandler with lastTime := 42 } "g"
      [("a", Value.str "b")] (by decide)).2

/-! ## C7 — binding only empty groups is a no-op -/

/-- C7: when every attribute in the bind is an empty group (in particular
for the empty list), `withAttrs` returns the very same handler state, and
rendering any record through the "derived" handler is literally rendering
through the original. -/
theorem withAttrs_empty_groups_noop (h : commonHandler) (as : List Attr)
    (module : String) (r : Record)
    (hall : ∀ a ∈ as, isEmptyGroup a.2 = true) :
    h.withAttrs as = h ∧
      handleNoRep (h.withAttrs as) module r = handleNoRep h module r := by
  have hc : countEmptyGroups as = as.length := countEmptyGroups_eq_length as hall
  have heq : h.withAttrs as = h := by
    unfold commonHandler.withAttrs
    rw [if_pos hc]
  exact ⟨heq, by rw [heq]⟩

/-- C7 witness: binding two empty-group attributes (one named, one inline)
to the plain handler is a no-op, and the render of a concrete record is
unchanged. -/
theorem withAttrs_empty_groups_noop_witness :
    (∀ a ∈ ([("g", Value.group []), ("", Value.group [])] : List Attr),
      isEmptyGroup a.2 = true) ∧
    (baseHandler.withAttrs [("g", Value.group []), ("", Value.group [])] = baseHandler ∧
      handleNoRep (baseHandler.withAttrs [("g", Value.group []), ("", Value.group [])]) ""
          { time := none, level := 0, msg := "w", attrs := [("k", Value.str "v")] } =
        handleNoRep baseHandler ""
          { time := none, level := 0, msg := "w", attrs := [("k", Value.str "v")] }) :=
  ⟨by decide,
   withAttrs_empty_groups_noop baseHandler [("g", Value.group []), ("", Value.group [])] ""
     { time := none, level := 0, msg := "w", attrs := [("k", Value.str "v")] } (by decide)⟩

/-! ## C8 — key style classification with strict dominance -/

lemma appendKey_buf (h : commonHandler) (s : HState) (key : String) :
    (appendKey h s key).buf =
      s.buf ++ s.sep.data ++ s.pfx ++
        (if h.criticalKeys.contains key then colorize .fgHiRed key ++ colorize .bold ": "
         else if h.importantKeys.contains key then colorize .fgHiYellow key ++ colorize .bold ": "
         else colorize .faintBold key ++ colorize .bold ": ").data := by
  unfold appendKey
  by_cases hsep : s.sep = ""
  · by_cases hpfx : s.pfx = []
    · simp [hsep, hpfx]
    · have hlen : s.pfx.length > 0 := List.length_pos.mpr hpfx
      simp [hsep, hlen, List.append_assoc]
  · by_cases hpfx : s.pfx = []
    · simp [hsep, hpfx]
    · have hlen : s.pfx.length > 0 := List.length_pos.mpr hpfx
      simp [hsep, hlen, List.append_assoc]

/-- C8: the styled key segment appended by `appendKey` is determined by
strict dominance: membership in the critical set yields the critical (high
red) style regardless of the important set; otherwise membership in the
important set yields the important (high yellow) style; otherwise the
normal (faint bold) style — always followed by the bold `": "` separator,
after the pending attribute separator and the group prefix. -/
theorem key_style_dominance (h : commonHandler) (s : HState) (key : String) :
    (h.criticalKeys.contains key = true →
      (appendKey h s key).buf =
        s.buf ++ s.sep.data ++ s.pfx ++ (colorize .fgHiRed key ++ colorize .bold ": ").data) ∧
    (h.criticalKeys.contains key = false → h.importantKeys.contains key = true →
      (appendKey h s key).buf =
        s.buf ++ s.sep.data ++ s.pfx ++ (colorize .fgHiYellow key ++ colorize .bold ": ").data) ∧
    (h.criticalKeys.contains key = false → h.importantKeys.contains key = false →
      (appendKey h s key).buf =
        s.buf ++ s.sep.data ++ s.pfx ++ (colorize .faintBold key ++ colorize .bold ": ").data) := by
  refine ⟨fun hc => ?_, fun hc hi => ?_, fun hc hi => ?_⟩
  · rw [appendKey_buf]
    have hc' : key ∈ h.criticalKeys := by simpa using hc
    simp [hc']
  · rw [appendKey_buf]
    have hc' : key ∉ h.criticalKeys := by simpa using hc
    have hi' : key ∈ h.importantKeys := by simpa using hi
    simp [hc', hi']
  · rw [appendKey_buf]
    have hc' : key ∉ h.criticalKeys := by simpa using hc
    have hi' : key ∉ h.importantKeys := by simpa using hi
    simp [hc', hi']

/-- C8 witness: with critical set `{e}` and important set `{e, i}`, the key
`e` renders critical (dominance over its important membership), `i` renders
important, and `n` renders normal. -/
theorem key_style_dominance_witness :
    (appendKey { baseHandler with criticalKeys := ["e"], importantKeys := ["e", "i"] }
        (commonHandler.newHandleState baseHandler [] "") "e").buf =
      [] ++ "".data ++ [] ++ (colorize .fgHiRed "e" ++ colorize .bold ": ").data ∧
    (appendKey { baseHandler with criticalKeys := ["e"], importantKeys := ["e", "i"] }
        (commonHandler.newHandleState baseHandler [] "") "i").buf =
      [] ++ "".data ++ [] ++ (colorize .fgHiYellow "i" ++ colorize .bold ": ").data ∧
    (appendKey { baseHandler with criticalKeys := ["e"], importantKeys := ["e", "i"] }
        (commonHandler.newHandleState baseHandler [] "") "n").buf =
      [] ++ "".data ++ [] ++ (colorize .faintBold "n" ++ colorize .bold ": ").data := by
  refine ⟨?_, ?_, ?_⟩
  · exact (key_style_dominance _ _ "e").1 (by decide)
  · exact (key_style_dominance _ _ "i").2.1 (by decide) (by decide)
  · exact (key_style_dominance _ _ "n").2.2 (by decide) (by decide)

/-! ### Buffer monotonicity: every session operation only appends -/

lemma buf_mono_appendRawString (h : commonHandler) (s : HState) (str : String) :
    ∃ t, (appendRawString h s str).buf = s.buf ++ t := by
  unfold appendRawString
  split
  · exact ⟨"    ".data ++ str.data, by simp⟩
  · exact ⟨str.data, rfl⟩

lemma buf_mono_writeEscapedForOutput (h : commonHandler) (s : HState) (str : String)
    (eq : Bool) : ∃ t, (writeEscapedForOutput h s str eq).buf = s.buf ++ t := by
  unfold writeEscapedForOutput
  split
  · exact buf_mono_appendRawString h s str
  · exact buf_mono_appendRawString h s _

lemma buf_mono_writeIndentParts (h : commonHandler) (indent : String) :
    ∀ (parts : List String) (s : HState),
      ∃ t, (writeIndentParts h s indent parts).buf = s.buf ++ t := by
  intro parts
  induction parts with
  | nil => exact fun s => ⟨[], by simp [writeIndentParts]⟩
  | cons p rest ih =>
      intro s
      cases rest with
      | nil =>
          unfold writeIndentParts
          split
          · exact ⟨[], by simp⟩
          · obtain ⟨t1, e1⟩ := buf_mono_appendRawString h s indent
            obtain ⟨t2, e2⟩ := buf_mono_writeEscapedForOutput h (appendRawString h s indent) p false
            obtain ⟨t3, e3⟩ :=
              buf_mono_appendRawString h
                (writeEscapedForOutput h (appendRawString h s indent) p false) "\n"
            exact ⟨t1 ++ t2 ++ t3, by rw [e3, e2, e1]; simp [List.append_assoc]⟩
      | cons q rest' =>
          unfold writeIndentParts
          obtain ⟨t1, e1⟩ := buf_mono_appendRawString h s indent
          obtain ⟨t2, e2⟩ := buf_mono_writeEscapedForOutput h (appendRawString h s indent) p false
          obtain ⟨t3, e3⟩ :=
            buf_mono_appendRawString h
              (writeEscapedForOutput h (appendRawString h s indent) p false) "\n"
          obtain ⟨t4, e4⟩ := ih
            (appendRawString h (writeEscapedForOutput h (appendRawString h s indent) p false) "\n")
          exact ⟨t1 ++ t2 ++ t3 ++ t4, by rw [e4, e3, e2, e1]; simp [List.append_assoc]⟩

lemma buf_mono_writeIndent (h : commonHandler) (s : HState) (str indent : String) :
    ∃ t, (writeIndent h s str indent).buf = s.buf ++ t :=
  buf_mono_writeIndentParts h indent (str.splitOn "\n") s

lemma buf_mono_appendString (h : commonHandler) (s : HState) (str : String) :
    ∃ t, (appendString h s str).buf = s.buf ++ t := by
  have core2 :
      ∀ (s' : HState) (x : List Char), s'.buf = s.buf ++ x →
        ∃ t,
          ({ (writeIndent h (appendRawString h s' "\n") str "  │ ") with
              linePos := 0 } : HState).buf = s.buf ++ t := by
    intro s' x hx
    obtain ⟨t1, e1⟩ := buf_mono_appendRawString h s' "\n"
    obtain ⟨t2, e2⟩ := buf_mono_writeIndent h (appendRawString h s' "\n") str "  │ "
    refine ⟨x ++ t1 ++ t2, ?_⟩
    show (writeIndent h (appendRawString h s' "\n") str "  │ ").buf = _
    rw [e2, e1, hx]
    simp [List.append_assoc]
  unfold appendString
  dsimp only
  split_ifs
  · exact core2 { s with buf := s.buf ++ ("\n" ++ "    ").data, linePos := 4 } _ rfl
  · exact core2 s [] (by simp)
  · exact core2 { s with buf := s.buf ++ ("\n" ++ "    ").data, linePos := 4 } _ rfl
  · exact core2 s [] (by simp)
  · exact ⟨("\n" ++ "    ").data ++ (goQuote str).data, by
      dsimp only; simp [List.append_assoc]⟩
  · exact ⟨(goQuote str).data, rfl⟩
  · exact ⟨("\n" ++ "    ").data ++ str.data, by
      dsimp only; simp [List.append_assoc]⟩
  · exact ⟨str.data, rfl⟩

lemma buf_mono_appendError (h : commonHandler) (s : HState) (e : String) :
    ∃ t, (appendError h s e).buf = s.buf ++ t :=
  buf_mono_appendString h s _

lemma buf_mono_appendTextValue (h : commonHandler) (s : HState) (v : Value) :
    ∃ t, ((appendTextValue h s v).1).buf = s.buf ++ t := by
  cases v with
  | str str =>
      simp only [appendTextValue]
      split
      · exact buf_mono_appendRawString h s _
      · exact buf_mono_appendString h s _
  | anyV a =>
      cases a with
      | marshaler outcome nilp =>
          cases outcome with
          | okM d => simp only [appendTextValue]; exact buf_mono_appendString h s _
          | errM e => exact ⟨[], by simp [appendTextValue]⟩
          | panicM m => exact ⟨[], by simp [appendTextValue]⟩
      | bytesV bs => exact ⟨(goQuote bs).data, rfl⟩
      | plain t => simp only [appendTextValue]; exact buf_mono_appendString h s _
  | int n => exact ⟨(toString n).data, rfl⟩
  | boolV b => exact ⟨_, rfl⟩
  | zero => simp only [appendTextValue]; exact buf_mono_appendString h s _
  | group as => exact ⟨_, rfl⟩

lemma buf_mono_appendValue (h : commonHandler) (s : HState) (v : Value) :
    ∃ t, (appendValue h s v).buf = s.buf ++ t := by
  unfold appendValue
  rcases hv : appendTextValue h s v with ⟨s', res⟩
  obtain ⟨t1, e1⟩ := buf_mono_appendTextValue h s v
  rw [hv] at e1
  dsimp only at e1
  cases res with
  | okR => exact ⟨t1, e1⟩
  | errR e =>
      obtain ⟨t2, e2⟩ := buf_mono_appendError h s' e
      exact ⟨t1 ++ t2, by dsimp only; rw [e2, e1, List.append_assoc]⟩
  | panicR m =>
      dsimp only
      split
      · obtain ⟨t2, e2⟩ := buf_mono_appendString h s' "<nil>"
        exact ⟨t1 ++ t2, by rw [e2, e1, List.append_assoc]⟩
      · obtain ⟨t2, e2⟩ := buf_mono_appendString h s' ("!PANIC: " ++ m)
        exact ⟨t1 ++ t2, by rw [e2, e1, List.append_assoc]⟩

lemma buf_mono_appendKey (h : commonHandler) (s : HState) (key : String) :
    ∃ t, (appendKey h s key).buf = s.buf ++ t := by
  exact ⟨s.sep.data ++ (s.pfx ++
      (if h.criticalKeys.contains key then colorize .fgHiRed key ++ colorize .bold ": "
       else if h.importantKeys.contains key then colorize .fgHiYellow key ++ colorize .bold ": "
       else colorize .faintBold key ++ colorize .bold ": ").data), by
    rw [appendKey_buf]
    simp [List.append_assoc]⟩

lemma openGroup_buf (s : HState) (name : String) : (openGroup s name).buf = s.buf := rfl

lemma openGroups_buf (l : List String) : ∀ s : HState, (l.foldl openGroup s).buf = s.buf := by
  induction l with
  | nil => exact fun s => rfl
  | cons n rest ih => exact fun s => by rw [List.foldl_cons]; exact ih (openGroup s n)

lemma buf_mono_appendAttrF :
    ∀ (fuel : Nat) (h : commonHandler) (s : HState) (a : Attr),
      ∃ t, ((appendAttrF fuel h s a).1).buf = s.buf ++ t := by
  intro fuel
  induction fuel with
  | zero => exact fun h s a => ⟨[], by simp [appendAttrF]⟩
  | succ f ih =>
      intro h s a
      have hfold :
          ∀ (as : List Attr) (init : HState × Bool),
            ∃ t,
              ((as.foldl
                  (fun (acc : HState × Bool) a' =>
                    let r := appendAttrF f h acc.1 a'
                    (r.1, acc.2 || r.2))
                  init).1).buf = init.1.buf ++ t := by
        intro as
        induction as with
        | nil => exact fun init => ⟨[], by simp⟩
        | cons a' rest ih2 =>
            intro init
            rw [List.foldl_cons]
            obtain ⟨t1, e1⟩ := ih h init.1 a'
            obtain ⟨t2, e2⟩ := ih2 ((appendAttrF f h init.1 a').1, init.2 || (appendAttrF f h init.1 a').2)
            exact ⟨t1 ++ t2, by rw [e2]; dsimp only; rw [e1, List.append_assoc]⟩
      have kv :
          ∀ (s' : HState) (x : List Char), s'.buf = s.buf ++ x → ∀ (k : String) (v : Value),
            ∃ t, (appendValue h (appendKey h s' k) v).buf = s.buf ++ t := by
        intro s' x hx k v
        obtain ⟨t1, e1⟩ := buf_mono_appendKey h s' k
        obtain ⟨t2, e2⟩ := buf_mono_appendValue h (appendKey h s' k) v
        exact ⟨x ++ t1 ++ t2, by rw [e2, e1, hx]; simp [List.append_assoc]⟩
      unfold appendAttrF
      dsimp only
      split
      · exact ⟨[], by simp⟩
      · generalize applyRep h s.groups a = a2
        split
        · exact ⟨[], by simp⟩
        · rcases a2 with ⟨k2, v2⟩
          have groupArm :
              ∀ attrs : List Attr,
                ∃ t,
                  ((if 0 < attrs.length then
                      let pos := s.buf.length
                      let s1 := if k2 ≠ "" then openGroup s k2 else s
                      let fr := attrs.foldl
                        (fun (acc : HState × Bool) a' =>
                          let r := appendAttrF f h acc.1 a'
                          (r.1, acc.2 || r.2))
                        (s1, false)
                      if !fr.2 then ({ fr.1 with buf := fr.1.buf.take pos }, false)
                      else (if k2 ≠ "" then closeGroup fr.1 k2 else fr.1, true)
                    else (s, true)).1).buf = s.buf ++ t := by
            intro attrs
            dsimp only
            rcases eq_or_ne k2 "" with hk | hk
            · have h' : ¬(k2 ≠ "") := by simp [hk]
              simp only [if_neg h']
              obtain ⟨t, e⟩ := hfold attrs (s, false)
              dsimp only at e
              split
              · split
                · exact ⟨[], by dsimp only; rw [e, List.take_left, List.append_nil]⟩
                · exact ⟨t, by dsimp only; rw [e]⟩
              · exact ⟨[], by simp⟩
            · simp only [if_pos hk]
              obtain ⟨t, e⟩ := hfold attrs (openGroup s k2, false)
              dsimp only at e
              rw [openGroup_buf] at e
              split
              · split
                · exact ⟨[], by dsimp only; rw [e, List.take_left, List.append_nil]⟩
                · exact ⟨t, by dsimp only [closeGroup]; rw [e]⟩
              · exact ⟨[], by simp⟩
          have strArm :
              ∀ st : String,
                ∃ t,
                  (writeIndent h (appendRawString h (appendKey h s k2) "\n") st "  │ ").buf =
                    s.buf ++ t := by
            intro st
            obtain ⟨t1, e1⟩ := buf_mono_appendKey h s k2
            obtain ⟨t2, e2⟩ := buf_mono_appendRawString h (appendKey h s k2) "\n"
            obtain ⟨t3, e3⟩ := buf_mono_writeIndent h
              (appendRawString h (appendKey h s k2) "\n") st "  │ "
            exact ⟨t1 ++ t2 ++ t3, by rw [e3, e2, e1]; simp [List.append_assoc]⟩
          have plainArm :
              ∀ v : Value,
                ∃ t,
                  ((if decide (h.terminalWidth > 0) && decide (s.linePos > 4) then
                      let sepLen := if s.sep ≠ "" then calculateVisibleLength s.sep else 0
                      let keyLen : Int := (k2.length : Int) + 2
                      let valueLen := estimateValueLength v
                      if decide (s.linePos + (sepLen + keyLen + valueLen) > h.terminalWidth) then
                        { s with buf := s.buf ++ ("\n" ++ "    ").data, linePos := 4, sep := "" }
                      else s
                    else s) : HState).buf = s.buf ++ t := by
            intro v
            dsimp only
            split
            · split <;> split
              · exact ⟨("\n" ++ "    ").data, rfl⟩
              · exact ⟨[], by simp⟩
              · exact ⟨("\n" ++ "    ").data, rfl⟩
              · exact ⟨[], by simp⟩
            · exact ⟨[], by simp⟩
          cases v2 with
          | group attrs => exact groupArm attrs
          | str st =>
              dsimp only
              split
              · exact strArm st
              · obtain ⟨x, hx⟩ := plainArm (Value.str st)
                exact kv _ x hx k2 (Value.str st)
          | int n =>
              dsimp only
              obtain ⟨x, hx⟩ := plainArm (Value.int n)
              exact kv _ x hx k2 (Value.int n)
          | boolV b =>
              dsimp only
              obtain ⟨x, hx⟩ := plainArm (Value.boolV b)
              exact kv _ x hx k2 (Value.boolV b)
          | anyV av =>
              dsimp only
              obtain ⟨x, hx⟩ := plainArm (Value.anyV av)
              exact kv _ x hx k2 (Value.anyV av)
          | zero =>
              dsimp only
              obtain ⟨x, hx⟩ := plainArm Value.zero
              exact kv _ x hx k2 Value.zero

lemma buf_mono_attrFold (fuel : Nat) (h : commonHandler) :
    ∀ (as : List Attr) (init : HState × Bool),
      ∃ t,
        ((as.foldl
            (fun (acc : HState × Bool) a =>
              let r := appendAttrF fuel h acc.1 a
              (r.1, acc.2 || r.2))
            init).1).buf = init.1.buf ++ t := by
  intro as
  induction as with
  | nil => exact fun init => ⟨[], by simp⟩
  | cons a rest ih =>
      intro init
      rw [List.foldl_cons]
      obtain ⟨t1, e1⟩ := buf_mono_appendAttrF fuel h init.1 a
      obtain ⟨t2, e2⟩ :=
        ih ((appendAttrF fuel h init.1 a).1, init.2 || (appendAttrF fuel h init.1 a).2)
      exact ⟨t1 ++ t2, by rw [e2]; dsimp only; rw [e1, List.append_assoc]⟩

lemma buf_mono_appendAttrsF (fuel : Nat) (h : commonHandler) (s : HState) (as : List Attr) :
    ∃ t, ((appendAttrsF fuel h s as).1).buf = s.buf ++ t := by
  unfold appendAttrsF
  exact buf_mono_attrFold fuel h as (s, false)

lemma openGroupsH_buf (h : commonHandler) (s : HState) : (openGroups h s).buf = s.buf := by
  unfold openGroups
  exact openGroups_buf _ s

lemma buf_mono_recordAttrsWalk (h : commonHandler) (s : HState) (r : Record) :
    ∃ t, (recordAttrsWalk h s r).buf = s.buf ++ t := by
  unfold recordAttrsWalk
  dsimp only
  obtain ⟨t, e⟩ := buf_mono_appendAttrsF (attrsFuel r.attrs) h
    (openGroups h { s with pfx := s.pfx ++ h.groupPfx.data }) r.attrs
  rw [openGroupsH_buf] at e
  dsimp only at e
  split
  · refine ⟨[], ?_⟩
    dsimp only
    rw [e, List.take_left, List.append_nil]
  · exact ⟨t, e⟩

lemma buf_mono_appendNonBuiltIns (h : commonHandler) (s : HState) (r : Record) :
    ∃ t, (appendNonBuiltIns h s r).buf = s.buf ++ t := by
  unfold appendNonBuiltIns
  dsimp only
  split
  · split
    · obtain ⟨t, e⟩ := buf_mono_recordAttrsWalk h
        { s with buf := s.buf ++ s.sep.data ++ h.preformattedAttrs, sep := h.attrSep } r
      dsimp only at e
      exact ⟨s.sep.data ++ h.preformattedAttrs ++ t, by rw [e]; simp [List.append_assoc]⟩
    · exact buf_mono_recordAttrsWalk h s r
  · split
    · exact ⟨s.sep.data ++ h.preformattedAttrs, by simp [List.append_assoc]⟩
    · exact ⟨[], by simp⟩

/-! ### The built-in prefix equals its display form -/

lemma appendRawString_buf (h : commonHandler) (s : HState) (str : String)
    (hni : s.needsIndent = false) :
    (appendRawString h s str).buf = s.buf ++ str.data := by
  unfold appendRawString
  rw [hni]
  simp

lemma appendRawString_sep (h : commonHandler) (s : HState) (str : String) :
    (appendRawString h s str).sep = s.sep := by
  unfold appendRawString
  split <;> rfl

lemma appendRawString_pfx (h : commonHandler) (s : HState) (str : String) :
    (appendRawString h s str).pfx = s.pfx := by
  unfold appendRawString
  split <;> rfl

lemma appendRawString_groups (h : commonHandler) (s : HState) (str : String) :
    (appendRawString h s str).groups = s.groups := by
  unfold appendRawString
  split <;> rfl

lemma appendRawString_ni (h : commonHandler) (s : HState) (str : String)
    (hni : s.needsIndent = false) :
    (appendRawString h s str).needsIndent = false := by
  unfold appendRawString
  split
  · rfl
  · exact hni

lemma timeStep_buf (h : commonHandler) (s : HState) (r : Record) :
    (timeStep h s r).buf = s.buf ++ timeText h r := by
  rcases hrt : r.time with _ | t
  · simp [timeStep, timeText, hrt]
  · simp only [timeStep, timeText, hrt]
    split <;> simp_all [appendMiniTime, appendShortTime]

lemma timeStep_sep (h : commonHandler) (s : HState) (r : Record) :
    (timeStep h s r).sep = s.sep := by
  rcases hrt : r.time with _ | t
  · simp only [timeStep, hrt]
  · simp only [timeStep, hrt]
    split <;> rfl

lemma timeStep_pfx (h : commonHandler) (s : HState) (r : Record) :
    (timeStep h s r).pfx = s.pfx := by
  rcases hrt : r.time with _ | t
  · simp only [timeStep, hrt]
  · simp only [timeStep, hrt]
    split <;> rfl

lemma timeStep_groups (h : commonHandler) (s : HState) (r : Record) :
    (timeStep h s r).groups = s.groups := by
  rcases hrt : r.time with _ | t
  · simp only [timeStep, hrt]
  · simp only [timeStep, hrt]
    split <;> rfl

lemma timeStep_ni (h : commonHandler) (s : HState) (r : Record)
    (hni : s.needsIndent = false) :
    (timeStep h s r).needsIndent = false := by
  rcases hrt : r.time with _ | t
  · simp only [timeStep, hrt]; exact hni
  · simp only [timeStep, hrt]
    split <;> exact hni

lemma contextStep_buf (h : commonHandler) (s : HState) (r : Record)
    (hni : s.needsIndent = false) :
    (contextStep h s r).buf = s.buf ++ contextText h r := by
  unfold contextStep contextText
  split
  · dsimp only
    split
    · rw [appendRawString_buf _ _ _ (appendRawString_ni _ _ _ hni),
        appendRawString_buf _ _ _ hni]
      simp [List.append_assoc]
    · simp
  · simp

lemma contextStep_sep (h : commonHandler) (s : HState) (r : Record) :
    (contextStep h s r).sep = s.sep := by
  unfold contextStep
  split
  · dsimp only
    split
    · rw [appendRawString_sep, appendRawString_sep]
    · rfl
  · rfl

lemma contextStep_pfx (h : commonHandler) (s : HState) (r : Record) :
    (contextStep h s r).pfx = s.pfx := by
  unfold contextStep
  split
  · dsimp only
    split
    · rw [appendRawString_pfx, appendRawString_pfx]
    · rfl
  · rfl

lemma contextStep_groups (h : commonHandler) (s : HState) (r : Record) :
    (contextStep h s r).groups = s.groups := by
  unfold contextStep
  split
  · dsimp only
    split
    · rw [appendRawString_groups, appendRawString_groups]
    · rfl
  · rfl

lemma contextStep_ni (h : commonHandler) (s : HState) (r : Record)
    (hni : s.needsIndent = false) :
    (contextStep h s r).needsIndent = false := by
  unfold contextStep
  split
  · dsimp only
    split
    · exact appendRawString_ni _ _ _ (appendRawString_ni _ _ _ hni)
    · exact hni
  · exact hni

lemma moduleStep_buf (h : commonHandler) (s : HState) (module : String)
    (hni : s.needsIndent = false) :
    (moduleStep h s module).buf = s.buf ++ moduleText module := by
  unfold moduleStep moduleText
  split
  · rw [appendRawString_buf _ _ _ (appendRawString_ni _ _ _ hni),
      appendRawString_buf _ _ _ hni]
    simp [List.append_assoc]
  · simp

lemma moduleStep_sep (h : commonHandler) (s : HState) (module : String) :
    (moduleStep h s module).sep = s.sep := by
  unfold moduleStep
  split
  · rw [appendRawString_sep, appendRawString_sep]
  · rfl

lemma moduleStep_pfx (h : commonHandler) (s : HState) (module : String) :
    (moduleStep h s module).pfx = s.pfx := by
  unfold moduleStep
  split
  · rw [appendRawString_pfx, appendRawString_pfx]
  · rfl

lemma moduleStep_groups (h : commonHandler) (s : HState) (module : String) :
    (moduleStep h s module).groups = s.groups := by
  unfold moduleStep
  split
  · rw [appendRawString_groups, appendRawString_groups]
  · rfl

lemma moduleStep_ni (h : commonHandler) (s : HState) (module : String)
    (hni : s.needsIndent = false) :
    (moduleStep h s module).needsIndent = false := by
  unfold moduleStep
  split
  · exact appendRawString_ni _ _ _ (appendRawString_ni _ _ _ hni)
  · exact hni

lemma sepStep_buf (h : commonHandler) (s : HState) (r : Record)
    (hni : s.needsIndent = false) :
    (sepStep h s r).buf = s.buf ++ sepText h r := by
  unfold sepStep sepText
  split
  · rw [appendRawString_buf _ _ _ hni]
  · simp

lemma sepStep_sep (h : commonHandler) (s : HState) (r : Record) :
    (sepStep h s r).sep = s.sep := by
  unfold sepStep
  split
  · rw [appendRawString_sep]
  · rfl

lemma sepStep_pfx (h : commonHandler) (s : HState) (r : Record) :
    (sepStep h s r).pfx = s.pfx := by
  unfold sepStep
  split
  · rw [appendRawString_pfx]
  · rfl

lemma sepStep_groups (h : commonHandler) (s : HState) (r : Record) :
    (sepStep h s r).groups = s.groups := by
  unfold sepStep
  split
  · rw [appendRawString_groups]
  · rfl

lemma sepStep_ni (h : commonHandler) (s : HState) (r : Record)
    (hni : s.needsIndent = false) :
    (sepStep h s r).needsIndent = false := by
  unfold sepStep
  split
  · exact appendRawString_ni _ _ _ hni
  · exact hni

lemma handleBuiltins_ni (h : commonHandler) (module : String) (r : Record) :
    ((handleBuiltins h module r).1).needsIndent = false := by
  unfold handleBuiltins
  exact sepStep_ni _ _ _ (appendRawString_ni _ _ _ (moduleStep_ni _ _ _ (contextStep_ni _ _ _
    (appendRawString_ni _ _ _ (timeStep_ni _ _ _ rfl)))))

lemma handleBuiltins_buf (h : commonHandler) (module : String) (r : Record) :
    ((handleBuiltins h module r).1).buf = builtinsText h module r ++ sepText h r := by
  unfold handleBuiltins builtinsText
  dsimp only
  rw [sepStep_buf _ _ _ (appendRawString_ni _ _ _ (moduleStep_ni _ _ _ (contextStep_ni _ _ _
      (appendRawString_ni _ _ _ (timeStep_ni _ _ _ rfl))))),
    appendRawString_buf _ _ _ (moduleStep_ni _ _ _ (contextStep_ni _ _ _
      (appendRawString_ni _ _ _ (timeStep_ni _ _ _ rfl)))),
    moduleStep_buf _ _ _ (contextStep_ni _ _ _ (appendRawString_ni _ _ _ (timeStep_ni _ _ _ rfl))),
    contextStep_buf _ _ _ (appendRawString_ni _ _ _ (timeStep_ni _ _ _ rfl)),
    appendRawString_buf _ _ _ (timeStep_ni _ _ _ rfl),
    timeStep_buf]
  show [] ++ _ ++ _ ++ _ ++ _ ++ _ ++ _ = _
  simp [List.append_assoc]

lemma handleBuiltins_sep (h : commonHandler) (module : String) (r : Record) :
    ((handleBuiltins h module r).1).sep = "" := by
  unfold handleBuiltins
  dsimp only
  rw [sepStep_sep, appendRawString_sep, moduleStep_sep, contextStep_sep, appendRawString_sep,
    timeStep_sep]
  rfl

lemma handleBuiltins_pfx (h : commonHandler) (module : String) (r : Record) :
    ((handleBuiltins h module r).1).pfx = [] := by
  unfold handleBuiltins
  dsimp only
  rw [sepStep_pfx, appendRawString_pfx, moduleStep_pfx, contextStep_pfx, appendRawString_pfx,
    timeStep_pfx]
  rfl

lemma handleBuiltins_groups (h : commonHandler) (module : String) (r : Record) :
    ((handleBuiltins h module r).1).groups =
      (if h.rep.isSome then some (h.groups.take h.nOpenGroups) else none) := by
  unfold handleBuiltins
  dsimp only
  rw [sepStep_groups, appendRawString_groups, moduleStep_groups, contextStep_groups,
    appendRawString_groups, timeStep_groups]
  rfl

lemma handleBuiltins_state (h : commonHandler) (module : String) (r : Record) :
    ∃ L : Int,
      (handleBuiltins h module r).1 =
        { buf := builtinsText h module r ++ sepText h r, sep := "", pfx := [],
          groups := (if h.rep.isSome then some (h.groups.take h.nOpenGroups) else none),
          linePos := L, needsIndent := false } := by
  have h0 := handleBuiltins_buf h module r
  have h1 := handleBuiltins_sep h module r
  have h2 := handleBuiltins_pfx h module r
  have h3 := handleBuiltins_groups h module r
  have h4 := handleBuiltins_ni h module r
  refine ⟨((handleBuiltins h module r).1).linePos, ?_⟩
  rcases hS : (handleBuiltins h module r).1 with ⟨b, sp, px, gs, lp, ni⟩
  rw [hS] at h0 h1 h2 h3 h4
  dsimp only at h0 h1 h2 h3 h4
  rw [h0, h1, h2, h3, h4]

lemma handle_decomposition (h : commonHandler) (module : String) (r : Record) :
    ∃ tail, ((handleNoRep h module r).1).data =
      builtinsText h module r ++ sepText h r ++ tail := by
  obtain ⟨t, ht⟩ := buf_mono_appendNonBuiltIns h (handleBuiltins h module r).1 r
  refine ⟨t ++ ['\n'], ?_⟩
  unfold handleNoRep
  dsimp only
  rw [ht, handleBuiltins_buf]
  simp [List.append_assoc]

/-! ## C4 — the separator marker between message and attributes -/

/-- C4 counterexample: a record whose only attribute matches a configured
context key (and a handler with no pre-formatted bytes).  The attribute is
dropped from the attribute section, nothing follows the marker — yet the
line still ends `" │ \n"`: the marker decision reads `r.NumAttrs() > 0`
before any drop happens, and the rollback position of `appendNonBuiltIns`
is captured after the marker was already written.  This refutes the claim's
"only if at least one attribute actually follows". -/
theorem separator_not_followed_counterexample :
    (handleNoRep { baseHandler with contextKeys := ["k"] } ""
        { time := none, level := 0, msg := "m",
          attrs := [("k", Value.str "v")] }).1 =
      "\x1b[94m [INFO]  \x1b[0m\x1b[2mv\x1b[0m m │ \n" := by decide

/-- C4 amended: the marker is emitted exactly when the record carries at
least one attribute *as supplied* or pre-formatted bytes exist — a purely
syntactic test that precedes the context-key drop; the rendered line is the
built-in prefix, then the marker under that condition, then the (possibly
empty) attribute section. -/
theorem separator_condition (h : commonHandler) (module : String) (r : Record) :
    (∃ tail, ((handleNoRep h module r).1).data =
        builtinsText h module r ++ sepText h r ++ tail) ∧
    (sepText h r = " │ ".data ↔ (r.attrs ≠ [] ∨ h.preformattedAttrs ≠ [])) ∧
    (sepText h r = [] ↔ (r.attrs = [] ∧ h.preformattedAttrs = [])) := by
  have hcnd : ((decide (0 < r.attrs.length) || decide (0 < h.preformattedAttrs.length)) = true) ↔
      (r.attrs ≠ [] ∨ h.preformattedAttrs ≠ []) := by
    simp [List.length_pos]
  refine ⟨handle_decomposition h module r, ?_, ?_⟩
  · unfold sepText
    split_ifs with hb
    · simpa using hcnd.mp hb
    · have hn : ¬(r.attrs ≠ [] ∨ h.preformattedAttrs ≠ []) := fun hx => hb (hcnd.mpr hx)
      constructor
      · intro he; exact absurd he (by decide)
      · intro hx; exact absurd hx hn
  · unfold sepText
    split_ifs with hb
    · have hx := hcnd.mp hb
      constructor
      · intro he; exact absurd he (by decide)
      · rintro ⟨ha, hp⟩; rw [ha, hp] at hx; simp at hx
    · have hn : ¬(r.attrs ≠ [] ∨ h.preformattedAttrs ≠ []) := fun hx => hb (hcnd.mpr hx)
      push_neg at hn
      simp [hn.1, hn.2]

/-! ## C2 — context-key suppression and nesting -/

/-- C2 counterexample (no `ReplaceAttr` hook configured — the
`handleNoRep` branch of `handle`): the group-tracking slice is `nil` at
every nesting level, so the configured context key `k` nested inside group
`g` is dropped too — only `g.o` renders — refuting the claim's "this holds
whether or not a ReplaceAttr hook is configured".  The second conjunct
renders the same record through a handler that does *not* configure `k` as
a context key: `g.k` appears, so the disappearance in the first line is
exactly the context-key suppression applied to a nested attribute. -/
theorem nested_context_key_counterexample :
    ((handleNoRep { baseHandler with contextKeys := ["k"] } ""
        { time := none, level := 0, msg := "m",
          attrs := [("g", Value.group [("k", Value.str "v"), ("o", Value.str "w")])] }).1 =
      "\x1b[94m [INFO]  \x1b[0mm │ g.\x1b[2;1mo\x1b[0m\x1b[1m: \x1b[0mw\n") ∧
    ((handleNoRep baseHandler ""
        { time := none, level := 0, msg := "m",
          attrs := [("g", Value.group [("k", Value.str "v"), ("o", Value.str "w")])] }).1 =
      "\x1b[94m [INFO]  \x1b[0mm │ g.\x1b[2;1mk\x1b[0m\x1b[1m: \x1b[0mv g.\x1b[2;1mo\x1b[0m\x1b[1m: \x1b[0mw\n") := by
  refine ⟨by decide, by decide⟩

/-- C2 amended: `appendAttr` drops a context-key attribute exactly when the
group-tracking slice is `nil` or empty (first conjunct; `nil` holds
everywhere without a hook, and an empty slice is the top level with one).
With no hook the slice is `nil` on entry to the walk (second conjunct) and
`openGroup` keeps `nil` `nil` through every group descent (third
conjunct), so the drop applies at every nesting level.  With a hook
configured, `newHandleState` allocates the slice — empty at the top level
(fourth conjunct), where the first conjunct still drops — and group
descent makes it non-empty, so a *nested* context key is not dropped: the
fifth conjunct evaluates `appendNonBuiltIns` — the record-attribute walk
that `handle` invokes in its hooked branch just as in its hook-free
branch — for a hooked handler on the nested record and finds both `g.k`
and `g.o` rendered. -/
theorem context_key_suppression_condition (fuel : Nat) (h : commonHandler)
    (s : HState) (a : Attr) (module : String) (r : Record) (name : String)
    (hk : h.contextKeys ≠ [])
    (hmem : h.contextKeys.contains a.1 = true)
    (hgs : s.groups = none ∨ s.groups = some []) :
    appendAttrF (fuel + 1) h s a = (s, false) ∧
    (h.rep = none → ((handleBuiltins h module r).1).groups = none) ∧
    (s.groups = none → (openGroup s name).groups = none) ∧
    ((commonHandler.newHandleState
        { baseHandler with contextKeys := ["k"], rep := some idRep } [] "").groups = some []) ∧
    ((appendNonBuiltIns { baseHandler with contextKeys := ["k"], rep := some idRep }
        (commonHandler.newHandleState
          { baseHandler with contextKeys := ["k"], rep := some idRep } [] "")
        { time := none, level := 0, msg := "m",
          attrs := [("g", Value.group [("k", Value.str "v"), ("o", Value.str "w")])] }).buf =
      "g.\x1b[2;1mk\x1b[0m\x1b[1m: \x1b[0mv g.\x1b[2;1mo\x1b[0m\x1b[1m: \x1b[0mw".data) := by
  refine ⟨?_, ?_, ?_, by decide, by decide⟩
  · have hlen : 0 < h.contextKeys.length := List.length_pos.mpr hk
    have hmem2 : a.1 ∈ h.contextKeys := by simpa using hmem
    have hcond : (h.contextKeys.length > 0 &&
        (match s.groups with | none => true | some gs => gs.isEmpty) &&
        h.contextKeys.contains a.1) = true := by
      rcases hgs with hgs | hgs <;> simp [hgs, hlen, hmem2]
    simp only [appendAttrF]
    rw [if_pos hcond]
  · intro hrep
    rw [handleBuiltins_groups]
    simp [hrep]
  · intro hnone
    simp [openGroup, hnone]

/-- C2 amended, witness: the context key `k` at fuel 3 is dropped from the
fresh no-hook state (whose tracking slice is `nil`), the slice stays `nil`
through `openGroup`, and the closed hooked-walk conjuncts evaluate. -/
theorem context_key_suppression_condition_witness :
    ({ baseHandler with contextKeys := ["k"] } : commonHandler).contextKeys ≠ [] ∧
    ({ baseHandler with contextKeys := ["k"] } : commonHandler).contextKeys.contains "k" = true ∧
    ((commonHandler.newHandleState { baseHandler with contextKeys := ["k"] } [] "").groups = none ∨
      (commonHandler.newHandleState { baseHandler with contextKeys := ["k"] } [] "").groups =
        some []) ∧
    (appendAttrF 3 { baseHandler with contextKeys := ["k"] }
        (commonHandler.newHandleState { baseHandler with contextKeys := ["k"] } [] "")
        ("k", Value.str "v") =
      (commonHandler.newHandleState { baseHandler with contextKeys := ["k"] } [] "", false) ∧
     (({ baseHandler with contextKeys := ["k"] } : commonHandler).rep = none →
        ((handleBuiltins { baseHandler with contextKeys := ["k"] } ""
          { time := none, level := 0, msg := "m", attrs := [] }).1).groups = none) ∧
     ((commonHandler.newHandleState { baseHandler with contextKeys := ["k"] } [] "").groups =
          none →
        (openGroup (commonHandler.newHandleState { baseHandler with contextKeys := ["k"] } [] "")
          "g").groups = none) ∧
     ((commonHandler.newHandleState
         { baseHandler with contextKeys := ["k"], rep := some idRep } [] "").groups = some []) ∧
     ((appendNonBuiltIns { baseHandler with contextKeys := ["k"], rep := some idRep }
         (commonHandler.newHandleState
           { baseHandler with contextKeys := ["k"], rep := some idRep } [] "")
         { time := none, level := 0, msg := "m",
           attrs := [("g", Value.group [("k", Value.str "v"), ("o", Value.str "w")])] }).buf =
       "g.\x1b[2;1mk\x1b[0m\x1b[1m: \x1b[0mv g.\x1b[2;1mo\x1b[0m\x1b[1m: \x1b[0mw".data)) :=
  ⟨by decide, by decide, Or.inl (by decide),
   context_key_suppression_condition 2 { baseHandler with contextKeys := ["k"] }
     (commonHandler.newHandleState { baseHandler with contextKeys := ["k"] } [] "")
     ("k", Value.str "v") "" { time := none, level := 0, msg := "m", attrs := [] } "g"
     (by decide) (by decide) (Or.inl (by decide))⟩

/-! ## C5 — context-value resolution order -/

lemma recordValues_fold_none (ck : String) (as : List Attr)
    (hnone : ∀ a ∈ as, (a.1 == ck) = false) :
    as.foldl
      (fun rv a => if a.1 == ck then setAssoc rv ck (sprintValue a.2) else rv)
      [] = [] := by
  induction as with
  | nil => rfl
  | cons a rest ih =>
      have ha := hnone a (by simp)
      simp only [List.foldl_cons, ha, Bool.false_eq_true, if_false]
      exact ih (fun x hx => hnone x (by simp [hx]))

/-- C5 counterexample: binding the context key `k` to the *empty* string
via `withAttrs` does populate the cache (`contextValues` holds `("k", "")`),
yet the record's own value `rec` is the one displayed: the resolution reads
the cache but treats the cached empty string as "absent" and falls through
to the record value, so a genuinely bound value loses to a same-named
record attribute — refuting unconditional cache precedence. -/
theorem context_value_empty_cache_counterexample :
    ((({ baseHandler with contextKeys := ["k"] } : commonHandler).withAttrs
        [("k", Value.str "")]).contextValues = [("k", "")]) ∧
    ((handleNoRep (({ baseHandler with contextKeys := ["k"] } : commonHandler).withAttrs
        [("k", Value.str "")]) ""
        { time := none, level := 0, msg := "m",
          attrs := [("k", Value.str "rec")] }).1 =
      "\x1b[94m [INFO]  \x1b[0m\x1b[2mrec\x1b[0m m │ \n") := by
  refine ⟨by decide, by decide⟩

/-- C5 amended: with one configured context key, (1) the context field sits
between the level display and the module/message in every rendered line;
(2) a cached bound value is displayed in preference to any record value
*provided it is non-empty*; (3) a key whose cached value is missing or
empty and which matches no record attribute contributes nothing — no
placeholder and no stray separator. -/
theorem context_value_resolution (h : commonHandler) (ck v module : String) (r : Record)
    (hck : h.contextKeys = [ck]) :
    (∃ tail, ((handleNoRep h module r).1).data =
        timeText h r ++ (levelDisplay r.level).data ++ contextText h r ++
          moduleText module ++ r.msg.data ++ sepText h r ++ tail) ∧
    (lookupAssoc h.contextValues ck = some v → v ≠ "" →
      contextText h r = (colorize .faint v).data ++ " ".data) ∧
    ((lookupAssoc h.contextValues ck = none ∨ lookupAssoc h.contextValues ck = some "") →
      (∀ a ∈ r.attrs, (a.1 == ck) = false) →
      contextText h r = []) := by
  refine ⟨?_, ?_, ?_⟩
  · obtain ⟨t, ht⟩ := handle_decomposition h module r
    exact ⟨t, by rw [ht]; simp [builtinsText, List.append_assoc]⟩
  · intro hv hvne
    have hI : String.intercalate " " [v] = v := rfl
    unfold contextText
    rw [hck]
    dsimp only
    simp only [List.foldl_cons, List.foldl_nil]
    rw [hv]
    simp [hvne, hI]
  · intro hcv hnorec
    have hrv := recordValues_fold_none ck r.attrs hnorec
    unfold contextText
    rw [hck]
    dsimp only
    simp only [List.foldl_cons, List.foldl_nil]
    rw [hrv]
    rcases hcv with hcv | hcv <;> rw [hcv] <;> simp [lookupAssoc]

/-- C5 amended, witness: the handler that bound `k ↦ "cache"` displays
`cache` (faint, trailing space) even when the record carries `k ↦ "rec"`;
the plain handler with no cache and a record without `k` contributes
nothing. -/
theorem context_value_resolution_witness :
    ((({ baseHandler with contextKeys := ["k"] } : commonHandler).withAttrs
        [("k", Value.str "cache")]).contextKeys = ["k"]) ∧
    (lookupAssoc (({ baseHandler with contextKeys := ["k"] } : commonHandler).withAttrs
        [("k", Value.str "cache")]).contextValues "k" = some "cache") ∧
    (contextText (({ baseHandler with contextKeys := ["k"] } : commonHandler).withAttrs
        [("k", Value.str "cache")])
        { time := none, level := 0, msg := "m", attrs := [("k", Value.str "rec")] } =
      (colorize .faint "cache").data ++ " ".data) ∧
    (contextText { baseHandler with contextKeys := ["k"] }
        { time := none, level := 0, msg := "m", attrs := [("o", Value.str "w")] } = []) :=
  ⟨by decide, by decide,
   (context_value_resolution
      (({ baseHandler with contextKeys := ["k"] } : commonHandler).withAttrs
        [("k", Value.str "cache")]) "k" "cache" ""
      { time := none, level := 0, msg := "m", attrs := [("k", Value.str "rec")] }
      (by decide)).2.1 (by decide) (by decide),
   (context_value_resolution { baseHandler with contextKeys := ["k"] } "k" "cache" ""
      { time := none, level := 0, msg := "m", attrs := [("o", Value.str "w")] }
      (by decide)).2.2 (Or.inl (by decide)) (by decide)⟩

/-! ## C9 — failing or faulting values degrade, never abort -/

lemma appendString_raw (h : commonHandler) (s : HState) (str : String)
    (hw : h.terminalWidth = 0)
    (hnl : '\n' ∉ str.data)
    (hq : needsQuoting str = false) :
    (appendString h s str).buf = s.buf ++ str.data := by
  unfold appendString
  rw [hw]
  simp [hnl, hq]

lemma appendString_quoted (h : commonHandler) (s : HState) (str : String)
    (hw : h.terminalWidth = 0)
    (hnl : '\n' ∉ str.data)
    (hq : needsQuoting str = true) :
    (appendString h s str).buf = s.buf ++ (goQuote str).data := by
  unfold appendString
  rw [hw]
  simp [hnl, hq]

/-- C9: a `MarshalText` error renders as the inline `!ERROR:<message>`
placeholder, a panic recovered over a nil pointer renders `<nil>`, any
other panic renders the (quoted, since it embeds a space) `!PANIC:
<message>` placeholder — and in each case the surrounding record still
renders completely: the closing conjuncts evaluate full lines in which the
attributes on both sides of the faulty one appear and the line ends in a
newline. -/
theorem marshal_failure_rendering (h : commonHandler) (s : HState) (e p : String)
    (nilp : Bool)
    (hw : h.terminalWidth = 0)
    (henl : e.data.contains '\n' = false)
    (hq : needsQuoting ("!ERROR:" ++ e) = false)
    (hpnl : p.data.contains '\n' = false) :
    ((appendValue h s (Value.anyV (AnyValue.marshaler (TMOutcome.errM e) nilp))).buf =
      s.buf ++ ("!ERROR:" ++ e).data) ∧
    ((appendValue h s (Value.anyV (AnyValue.marshaler (TMOutcome.panicM p) true))).buf =
      s.buf ++ "<nil>".data) ∧
    (nilp = false →
      (appendValue h s (Value.anyV (AnyValue.marshaler (TMOutcome.panicM p) nilp))).buf =
        s.buf ++ (goQuote ("!PANIC: " ++ p)).data) ∧
    ((handleNoRep baseHandler ""
        { time := none, level := 0, msg := "m",
          attrs := [("a", Value.int 1),
            ("bad", Value.anyV (AnyValue.marshaler (TMOutcome.errM "boom") false)),
            ("b", Value.int 2)] }).1 =
      "\x1b[94m [INFO]  \x1b[0mm │ \x1b[2;1ma\x1b[0m\x1b[1m: \x1b[0m1 \x1b[2;1mbad\x1b[0m\x1b[1m: \x1b[0m!ERROR:boom \x1b[2;1mb\x1b[0m\x1b[1m: \x1b[0m2\n") ∧
    ((handleNoRep baseHandler ""
        { time := none, level := 0, msg := "m",
          attrs := [("a", Value.int 1),
            ("bad", Value.anyV (AnyValue.marshaler (TMOutcome.panicM "pp") true)),
            ("b", Value.int 2)] }).1 =
      "\x1b[94m [INFO]  \x1b[0mm │ \x1b[2;1ma\x1b[0m\x1b[1m: \x1b[0m1 \x1b[2;1mbad\x1b[0m\x1b[1m: \x1b[0m<nil> \x1b[2;1mb\x1b[0m\x1b[1m: \x1b[0m2\n") ∧
    ((handleNoRep baseHandler ""
        { time := none, level := 0, msg := "m",
          attrs := [("a", Value.int 1),
            ("bad", Value.anyV (AnyValue.marshaler (TMOutcome.panicM "pp") false)),
            ("b", Value.int 2)] }).1 =
      "\x1b[94m [INFO]  \x1b[0mm │ \x1b[2;1ma\x1b[0m\x1b[1m: \x1b[0m1 \x1b[2;1mbad\x1b[0m\x1b[1m: \x1b[0m\"!PANIC: pp\" \x1b[2;1mb\x1b[0m\x1b[1m: \x1b[0m2\n") := by
  have henl2 : '\n' ∉ e.data := by simpa using henl
  have hpnl2 : '\n' ∉ p.data := by simpa using hpnl
  have herrnl : '\n' ∉ ("!ERROR:" ++ e).data := by
    rw [String.data_append]
    simp only [List.mem_append, not_or]
    exact ⟨by decide, henl2⟩
  have hpanl : '\n' ∉ ("!PANIC: " ++ p).data := by
    rw [String.data_append]
    simp only [List.mem_append, not_or]
    exact ⟨by decide, hpnl2⟩
  have hpq : needsQuoting ("!PANIC: " ++ p) = true := by
    unfold needsQuoting
    split
    · rfl
    · rw [String.data_append]
      simp only [List.any_append, Bool.or_eq_true]
      exact Or.inl (by decide)
  refine ⟨?_, ?_, ?_, by decide, by decide, by decide⟩
  · simp only [appendValue, appendTextValue]
    unfold appendError
    exact appendString_raw h s ("!ERROR:" ++ e) hw herrnl hq
  · simp only [appendValue, appendTextValue, valueIsNilPtr]
    exact appendString_raw h s "<nil>" hw (by decide) (by decide)
  · intro hnf
    rw [hnf]
    simp only [appendValue, appendTextValue, valueIsNilPtr]
    exact appendString_quoted h s ("!PANIC: " ++ p) hw hpanl hpq

/-- C9 witness: the placeholders at `e = "boom"`, `p = "pp"` from the fresh
state of the plain handler. -/
theorem marshal_failure_rendering_witness :
    (baseHandler.terminalWidth = 0 ∧
      "boom".data.contains '\n' = false ∧
      needsQuoting ("!ERROR:" ++ "boom") = false ∧
      "pp".data.contains '\n' = false) ∧
    ((appendValue baseHandler (baseHandler.newHandleState [] "")
        (Value.anyV (AnyValue.marshaler (TMOutcome.errM "boom") false))).buf =
      (baseHandler.newHandleState [] "").buf ++ ("!ERROR:" ++ "boom").data) ∧
    ((appendValue baseHandler (baseHandler.newHandleState [] "")
        (Value.anyV (AnyValue.marshaler (TMOutcome.panicM "pp") true))).buf =
      (baseHandler.newHandleState [] "").buf ++ "<nil>".data) ∧
    ((appendValue baseHandler (baseHandler.newHandleState [] "")
        (Value.anyV (AnyValue.marshaler (TMOutcome.panicM "pp") false))).buf =
      (baseHandler.newHandleState [] "").buf ++ (goQuote ("!PANIC: " ++ "pp")).data) :=
  have hmain := marshal_failure_rendering baseHandler (baseHandler.newHandleState [] "")
    "boom" "pp" false (by decide) (by decide) (by decide) (by decide)
  ⟨⟨by decide, by decide, by decide, by decide⟩,
   hmain.1, hmain.2.1, hmain.2.2.1 (by decide)⟩

/-! ## C10 — `module` attributes fold into the module name -/

lemma moduleFold_fst (attrs : List Attr) : ∀ (m : String) (l : List Attr),
    (attrs.foldl
      (fun (acc : String × List Attr) a =>
        if a.1 == ModuleKey && isStringValue a.2 then
          (if acc.1 == "" then valueString a.2 else acc.1 ++ "." ++ valueString a.2, acc.2)
        else (acc.1, acc.2 ++ [a]))
      (m, l)).1 =
    attrs.foldl
      (fun m a =>
        if a.1 == ModuleKey && isStringValue a.2 then
          (if m == "" then valueString a.2 else m ++ "." ++ valueString a.2)
        else m)
      m := by
  induction attrs with
  | nil => intro m l; rfl
  | cons a rest ih =>
      intro m l
      simp only [List.foldl_cons]
      split <;> exact ih _ _

lemma moduleFold_snd (attrs : List Attr) : ∀ (m : String) (l : List Attr),
    (attrs.foldl
      (fun (acc : String × List Attr) a =>
        if a.1 == ModuleKey && isStringValue a.2 then
          (if acc.1 == "" then valueString a.2 else acc.1 ++ "." ++ valueString a.2, acc.2)
        else (acc.1, acc.2 ++ [a]))
      (m, l)).2 =
    l ++ attrs.filter (fun a => !(a.1 == ModuleKey && isStringValue a.2)) := by
  induction attrs with
  | nil => intro m l; simp
  | cons a rest ih =>
      intro m l
      simp only [List.foldl_cons, List.filter_cons]
      split
      · rename_i hc
        rw [ih]
        simp [hc]
      · rename_i hc
        rw [ih]
        simp_all [List.append_assoc]
        have hor : ¬a.1 = ModuleKey ∨ isStringValue a.2 = false := by
          by_cases hm : a.1 = ModuleKey
          · exact Or.inr (hc hm)
          · exact Or.inl hm
        rw [if_pos hor]

/-- C10: `TextHandler.WithAttrs` splits its input into the module name and
the ordinary attributes: the new module name is the fold of the string
values under the `module` key (`'.'`-joined onto an existing name), the
wrapped handler receives exactly the non-module attributes, binding a lone
module attribute leaves the wrapped handler untouched, and the accumulated
module name is rendered (faint, trailing space) immediately before the
message of every subsequent record — never as an ordinary key/value pair:
the closing conjuncts evaluate two chained binds to the name `auth.db` and
a line containing `auth.db` before the message and only `x: 1` after the
marker. -/
theorem module_attr_folding (th : TextHandler) (attrs : List Attr) (v : String)
    (r : Record) :
    ((th.WithAttrs attrs).module =
      attrs.foldl
        (fun m a =>
          if a.1 == ModuleKey && isStringValue a.2 then
            (if m == "" then valueString a.2 else m ++ "." ++ valueString a.2)
          else m)
        th.module) ∧
    ((th.WithAttrs attrs).common =
      th.common.withAttrs (attrs.filter (fun a => !(a.1 == ModuleKey && isStringValue a.2)))) ∧
    ((th.WithAttrs [(ModuleKey, Value.str v)]).module =
      (if th.module == "" then v else th.module ++ "." ++ v)) ∧
    ((th.WithAttrs [(ModuleKey, Value.str v)]).common = th.common) ∧
    (∃ tail, ((th.Handle r).1).data =
      timeText th.common r ++ (levelDisplay r.level).data ++ contextText th.common r ++
        moduleText th.module ++ r.msg.data ++ sepText th.common r ++ tail) ∧
    ((({ common := baseHandler, module := "" } : TextHandler).WithAttrs
        [("module", Value.str "auth"), ("x", Value.int 1)]).WithAttrs
        [("module", Value.str "db")]).module = "auth.db" ∧
    (((({ common := baseHandler, module := "" } : TextHandler).WithAttrs
        [("module", Value.str "auth"), ("x", Value.int 1)]).WithAttrs
        [("module", Value.str "db")]).Handle
        { time := none, level := 0, msg := "mm", attrs := [] }).1 =
      "\x1b[94m [INFO]  \x1b[0m\x1b[2mauth.db\x1b[0m mm │ \x1b[2;1mx\x1b[0m\x1b[1m: \x1b[0m1\n" := by
  refine ⟨?_, ?_, ?_, ?_, ?_, by decide, by decide⟩
  · unfold TextHandler.WithAttrs
    dsimp only
    exact moduleFold_fst attrs th.module []
  · unfold TextHandler.WithAttrs
    dsimp only
    rw [moduleFold_snd attrs th.module []]
    simp
  · unfold TextHandler.WithAttrs
    dsimp only
    simp [ModuleKey, isStringValue, valueString]
  · unfold TextHandler.WithAttrs
    dsimp only
    rw [moduleFold_snd [(ModuleKey, Value.str v)] th.module []]
    simp only [List.filter, isStringValue, Bool.and_true, beq_self_eq_true, Bool.not_true]
    unfold commonHandler.withAttrs
    simp [countEmptyGroups]
  · obtain ⟨t, ht⟩ := handle_decomposition th.common th.module r
    refine ⟨t, ?_⟩
    show ((handleNoRep th.common th.module r).1).data = _
    rw [ht]
    simp [builtinsText, List.append_assoc]

/-! ## C6 — quoting and the unquote round trip -/

lemma hexVal_hexDigit : ∀ d, d < 16 → hexVal (hexDigit d) = some d := by decide

lemma parseHex_hexDigits : ∀ (w n : Nat) (rest : List Char),
    parseHex w (hexDigits w n ++ rest) = some (n % 16 ^ w, rest)
  | 0, n, rest => by simp [hexDigits, parseHex, Nat.mod_one]
  | w + 1, n, rest => by
      have hd : n / 16 ^ w % 16 < 16 := Nat.mod_lt _ (by norm_num)
      have ih := parseHex_hexDigits w n rest
      show parseHex (w + 1) (hexDigit (n / 16 ^ w % 16) :: (hexDigits w n ++ rest)) = _
      simp only [parseHex, hexVal_hexDigit _ hd, ih]
      have hm : n % 16 ^ (w + 1) = n % 16 ^ w + 16 ^ w * (n / 16 ^ w % 16) :=
        Nat.mod_pow_succ
      have he : n / 16 ^ w % 16 * 16 ^ w + n % 16 ^ w = n % 16 ^ (w + 1) := by
        rw [hm]; ring
      rw [he]

lemma char_toNat_valid (c : Char) :
    c.toNat < 0xD800 ∨ (0xE000 ≤ c.toNat ∧ c.toNat < 0x110000) := by
  have h := c.valid
  unfold UInt32.isValidChar Nat.isValidChar at h
  exact h

lemma isValidRuneNat_toNat (c : Char) : isValidRuneNat c.toNat = true := by
  unfold isValidRuneNat
  rcases char_toNat_valid c with h | ⟨h1, h2⟩
  · simp [h]
  · simp [h1, h2]

lemma char_toNat_lt (c : Char) : c.toNat < 0x110000 := by
  rcases char_toNat_valid c with h | ⟨_, h2⟩
  · omega
  · exact h2

lemma newline_not_mem_hexDigits : ∀ (w n : Nat), '\n' ∉ hexDigits w n
  | 0, n => by simp [hexDigits]
  | w + 1, n => by
      have hd : n / 16 ^ w % 16 < 16 := Nat.mod_lt _ (by norm_num)
      have hne : ∀ d, d < 16 → hexDigit d ≠ '\n' := by decide
      simp only [hexDigits, List.mem_cons, not_or]
      exact ⟨fun he => hne _ hd he.symm, newline_not_mem_hexDigits w n⟩

lemma quoteRune_eq (c : Char) :
    ((c = '"' ∨ c = '\\') ∧ quoteRune c = ['\\', c]) ∨
    (c ≠ '"' ∧ c ≠ '\\' ∧ goIsPrint c = true ∧ quoteRune c = [c]) ∨
    (quoteRune c = ['\\', 'a'] ∧ c = '\x07') ∨
    (quoteRune c = ['\\', 'b'] ∧ c = '\x08') ∨
    (quoteRune c = ['\\', 'f'] ∧ c = '\x0c') ∨
    (quoteRune c = ['\\', 'n'] ∧ c = '\n') ∨
    (quoteRune c = ['\\', 'r'] ∧ c = '\x0d') ∨
    (quoteRune c = ['\\', 't'] ∧ c = '\t') ∨
    (quoteRune c = ['\\', 'v'] ∧ c = '\x0b') ∨
    ((c.toNat < 32 ∨ c.toNat = 127) ∧ quoteRune c = '\\' :: 'x' :: hexDigits 2 c.toNat) ∨
    (c.toNat < 65536 ∧ quoteRune c = '\\' :: 'u' :: hexDigits 4 c.toNat) ∨
    (quoteRune c = '\\' :: 'U' :: hexDigits 8 c.toNat) := by
  by_cases h1 : (c == '"' || c == '\\') = true
  · exact Or.inl ⟨by simpa using h1, by unfold quoteRune; rw [if_pos h1]⟩
  · by_cases h2 : goIsPrint c = true
    · have hne : ¬(c = '"' ∨ c = '\\') := by simpa using h1
      exact Or.inr (Or.inl ⟨fun he => hne (Or.inl he), fun he => hne (Or.inr he), h2,
        by unfold quoteRune; rw [if_neg h1, if_pos h2]⟩)
    · by_cases h3 : (c == '\x07') = true
      · exact Or.inr (Or.inr (Or.inl
          ⟨by unfold quoteRune; rw [if_neg h1, if_neg h2, if_pos h3], by simpa using h3⟩))
      · by_cases h4 : (c == '\x08') = true
        · exact Or.inr (Or.inr (Or.inr (Or.inl
            ⟨by unfold quoteRune; rw [if_neg h1, if_neg h2, if_neg h3, if_pos h4],
             by simpa using h4⟩)))
        · by_cases h5 : (c == '\x0c') = true
          · exact Or.inr (Or.inr (Or.inr (Or.inr (Or.inl
              ⟨by unfold quoteRune; rw [if_neg h1, if_neg h2, if_neg h3, if_neg h4, if_pos h5],
               by simpa using h5⟩))))
          · by_cases h6 : (c == '\n') = true
            · exact Or.inr (Or.inr (Or.inr (Or.inr (Or.inr (Or.inl
                ⟨by unfold quoteRune;
                    rw [if_neg h1, if_neg h2, if_neg h3, if_neg h4, if_neg h5, if_pos h6],
                 by simpa using h6⟩)))))
            · by_cases h7 : (c == '\x0d') = true
              · exact Or.inr (Or.inr (Or.inr (Or.inr (Or.inr (Or.inr (Or.inl
                  ⟨by unfold quoteRune;
                      rw [if_neg h1, if_neg h2, if_neg h3, if_neg h4, if_neg h5, if_neg h6,
                        if_pos h7],
                   by simpa using h7⟩))))))
              · by_cases h8 : (c == '\t') = true
                · exact Or.inr (Or.inr (Or.inr (Or.inr (Or.inr (Or.inr (Or.inr (Or.inl
                    ⟨by unfold quoteRune;
                        rw [if_neg h1, if_neg h2, if_neg h3, if_neg h4, if_neg h5, if_neg h6,
                          if_neg h7, if_pos h8],
                     by simpa using h8⟩)))))))
                · by_cases h9 : (c == '\x0b') = true
                  · exact Or.inr (Or.inr (Or.inr (Or.inr (Or.inr (Or.inr (Or.inr (Or.inr (Or.inl
                      ⟨by unfold quoteRune;
                          rw [if_neg h1, if_neg h2, if_neg h3, if_neg h4, if_neg h5, if_neg h6,
                            if_neg h7, if_neg h8, if_pos h9],
                       by simpa using h9⟩))))))))
                  · by_cases h10 : (decide (c.toNat < 32) || c.toNat == 127) = true
                    · exact Or.inr (Or.inr (Or.inr (Or.inr (Or.inr (Or.inr (Or.inr (Or.inr
                        (Or.inr (Or.inl ⟨by simpa using h10,
                         by unfold quoteRune;
                            rw [if_neg h1, if_neg h2, if_neg h3, if_neg h4, if_neg h5, if_neg h6,
                              if_neg h7, if_neg h8, if_neg h9, if_pos h10]⟩)))))))))
                    · by_cases h11 : c.toNat < 65536
                      · exact Or.inr (Or.inr (Or.inr (Or.inr (Or.inr (Or.inr (Or.inr (Or.inr
                          (Or.inr (Or.inr (Or.inl ⟨h11,
                           by unfold quoteRune;
                              rw [if_neg h1, if_neg h2, if_neg h3, if_neg h4, if_neg h5,
                                if_neg h6, if_neg h7, if_neg h8, if_neg h9, if_neg h10,
                                if_pos h11]⟩))))))))))
                      · exact Or.inr (Or.inr (Or.inr (Or.inr (Or.inr (Or.inr (Or.inr (Or.inr
                          (Or.inr (Or.inr (Or.inr
                           (by unfold quoteRune;
                               rw [if_neg h1, if_neg h2, if_neg h3, if_neg h4, if_neg h5,
                                 if_neg h6, if_neg h7, if_neg h8, if_neg h9, if_neg h10,
                                 if_neg h11])))))))))))

lemma quoteRune_ne_nil (c : Char) : quoteRune c ≠ [] := by
  rcases quoteRune_eq c with ⟨_, hq⟩ | ⟨_, _, _, hq⟩ | ⟨hq, _⟩ | ⟨hq, _⟩ | ⟨hq, _⟩ | ⟨hq, _⟩ |
    ⟨hq, _⟩ | ⟨hq, _⟩ | ⟨hq, _⟩ | ⟨_, hq⟩ | ⟨_, hq⟩ | hq <;>
    rw [hq] <;> exact List.cons_ne_nil _ _

lemma newline_not_mem_quoteRune (c : Char) : '\n' ∉ quoteRune c := by
  rcases quoteRune_eq c with ⟨hc, hq⟩ | ⟨_, _, hp, hq⟩ | ⟨hq, _⟩ | ⟨hq, _⟩ | ⟨hq, _⟩ | ⟨hq, hc⟩ |
    ⟨hq, _⟩ | ⟨hq, _⟩ | ⟨hq, _⟩ | ⟨_, hq⟩ | ⟨_, hq⟩ | hq
  · rw [hq]
    rcases hc with h | h <;> subst h <;> decide
  · rw [hq]
    simp only [List.mem_singleton]
    intro he
    rw [← he] at hp
    exact absurd hp (by decide)
  · rw [hq]; decide
  · rw [hq]; decide
  · rw [hq]; decide
  · -- the `\n` arm cannot fire for a character distinct from `'\n'`, and for
    -- `'\n'` itself its escape `['\\', 'n']` does not contain a raw newline
    subst hc; rw [hq]; decide
  · rw [hq]; decide
  · rw [hq]; decide
  · rw [hq]; decide
  · rw [hq]
    simp only [List.mem_cons, not_or]
    exact ⟨by decide, by decide, newline_not_mem_hexDigits 2 c.toNat⟩
  · rw [hq]
    simp only [List.mem_cons, not_or]
    exact ⟨by decide, by decide, newline_not_mem_hexDigits 4 c.toNat⟩
  · rw [hq]
    simp only [List.mem_cons, not_or]
    exact ⟨by decide, by decide, newline_not_mem_hexDigits 8 c.toNat⟩

lemma newline_not_mem_flatMap (l : List Char) : '\n' ∉ l.flatMap quoteRune := by
  simp only [List.mem_flatMap, not_exists, not_and]
  exact fun a _ => newline_not_mem_quoteRune a

lemma unquoteChar_quoteRune (c : Char) (rest : List Char) :
    unquoteChar (quoteRune c ++ rest) = some (c, rest) := by
  rcases quoteRune_eq c with ⟨hc, hq⟩ | ⟨hne1, hne2, _, hq⟩ | ⟨hq, hc⟩ | ⟨hq, hc⟩ | ⟨hq, hc⟩ |
    ⟨hq, hc⟩ | ⟨hq, hc⟩ | ⟨hq, hc⟩ | ⟨hq, hc⟩ | ⟨hcond, hq⟩ | ⟨hcond, hq⟩ | hq
  · rw [hq]
    rcases hc with h | h <;> rw [h] <;> rfl
  · rw [hq]
    have hb1 : (c == '"') = false := beq_eq_false_iff_ne.mpr hne1
    have hb2 : (c == '\\') = false := beq_eq_false_iff_ne.mpr hne2
    show (if (c == '"') = true then none
          else if (!(c == '\\')) = true then some (c, rest)
          else _) = some (c, rest)
    rw [hb1, hb2]
    rfl
  · rw [hq, hc]; rfl
  · rw [hq, hc]; rfl
  · rw [hq, hc]; rfl
  · rw [hq, hc]; rfl
  · rw [hq, hc]; rfl
  · rw [hq, hc]; rfl
  · rw [hq, hc]; rfl
  · rw [hq]
    have hred : unquoteChar (('\\' :: 'x' :: hexDigits 2 c.toNat) ++ rest) =
        (match parseHex 2 (hexDigits 2 c.toNat ++ rest) with
         | some (n, r) => some (Char.ofNat n, r)
         | none => none) := rfl
    have hlt : c.toNat < 16 ^ 2 := by rcases hcond with h | h <;> omega
    rw [hred, parseHex_hexDigits]
    dsimp only
    rw [Nat.mod_eq_of_lt hlt, Char.ofNat_toNat]
  · rw [hq]
    have hred : unquoteChar (('\\' :: 'u' :: hexDigits 4 c.toNat) ++ rest) =
        (match parseHex 4 (hexDigits 4 c.toNat ++ rest) with
         | some (n, r) =>
             if isValidRuneNat n then some (Char.ofNat n, r) else none
         | none => none) := rfl
    have hlt : c.toNat < 16 ^ 4 := by omega
    rw [hred, parseHex_hexDigits]
    dsimp only
    rw [Nat.mod_eq_of_lt hlt, isValidRuneNat_toNat, if_pos rfl, Char.ofNat_toNat]
  · rw [hq]
    have hred : unquoteChar (('\\' :: 'U' :: hexDigits 8 c.toNat) ++ rest) =
        (match parseHex 8 (hexDigits 8 c.toNat ++ rest) with
         | some (n, r) =>
             if isValidRuneNat n then some (Char.ofNat n, r) else none
         | none => none) := rfl
    have hlt : c.toNat < 16 ^ 8 := by
      have := char_toNat_lt c
      omega
    rw [hred, parseHex_hexDigits]
    dsimp only
    rw [Nat.mod_eq_of_lt hlt, isValidRuneNat_toNat, if_pos rfl, Char.ofNat_toNat]

lemma unquoteBody_flatMap : ∀ (l : List Char) (fuel : Nat), l.length ≤ fuel →
    unquoteBody fuel (l.flatMap quoteRune) = some l
  | [], fuel, _ => by simp [unquoteBody]
  | c :: l2, fuel, hf => by
      rcases fuel with _ | f
      · simp at hf
      · have hne : quoteRune c ++ l2.flatMap quoteRune ≠ [] := by
          simp [quoteRune_ne_nil c]
        rcases hL : quoteRune c ++ l2.flatMap quoteRune with _ | ⟨c0, cs⟩
        · exact absurd hL hne
        · simp only [List.flatMap_cons, hL, unquoteBody]
          rw [← hL, unquoteChar_quoteRune]
          dsimp only
          rw [unquoteBody_flatMap l2 f (by simpa using hf)]
          rfl

lemma length_le_flatMap_quoteRune (l : List Char) :
    l.length ≤ (l.flatMap quoteRune).length := by
  induction l with
  | nil => simp
  | cons c l2 ih =>
      have h1 : 0 < (quoteRune c).length := List.length_pos.mpr (quoteRune_ne_nil c)
      simp only [List.flatMap_cons, List.length_append, List.length_cons]
      omega

lemma goUnquote_goQuote (s : String) : goUnquote (goQuote s) = some s := by
  have hcont : (s.data.flatMap quoteRune).contains '\n' = false := by
    simpa using fun hm => (newline_not_mem_flatMap s.data) hm
  have h1 : goUnquote (goQuote s) =
      (match (s.data.flatMap quoteRune ++ ['"']).getLast? with
       | some '"' =>
           if (s.data.flatMap quoteRune ++ ['"']).dropLast.contains '\n' = true then none
           else ((unquoteBody (s.data.flatMap quoteRune ++ ['"']).dropLast.length
               ((s.data.flatMap quoteRune ++ ['"']).dropLast)).map
             (fun l => (⟨l⟩ : String)))
       | _ => none) := rfl
  rw [h1, List.getLast?_concat, List.dropLast_concat]
  show (if (s.data.flatMap quoteRune).contains '\n' = true then none
        else ((unquoteBody (s.data.flatMap quoteRune).length (s.data.flatMap quoteRune)).map
          (fun l => (⟨l⟩ : String)))) = some s
  rw [hcont]
  show ((unquoteBody (s.data.flatMap quoteRune).length (s.data.flatMap quoteRune)).map
    (fun l => (⟨l⟩ : String))) = some s
  rw [unquoteBody_flatMap s.data _ (length_le_flatMap_quoteRune s.data)]
  rfl

lemma needsQuoting_of_mem (v : String) (c : Char) (hc : c ∈ v.data)
    (hq : charNeedsQuoting c = true) : needsQuoting v = true := by
  unfold needsQuoting
  split
  · rfl
  · exact List.any_of_mem hc hq

/-- C6 counterexample: the *empty* string contains none of the special
characters, yet it is not rendered as its raw (empty) bytes: `needsQuoting`
declares the empty string quotable up front, so the value renders as the
two characters `""` — both standalone and inside a full line. -/
theorem empty_string_quoted_counterexample :
    ("".data.any charNeedsQuoting = false) ∧
    needsQuoting "" = true ∧
    ((appendString baseHandler (baseHandler.newHandleState [] "") "").buf = "\"\"".data) ∧
    ((handleNoRep baseHandler ""
        { time := none, level := 0, msg := "m", attrs := [("k", Value.str "")] }).1 =
      "\x1b[94m [INFO]  \x1b[0mm │ \x1b[2;1mk\x1b[0m\x1b[1m: \x1b[0m\"\"\n") := by
  refine ⟨by decide, by decide, by decide, by decide⟩

/-- C6 amended: a *non-empty* string value none of whose characters
triggers `charNeedsQuoting` renders as its raw bytes; a string containing
an embedded space, `=` or double quote (and no newline) renders as its
`strconv.Quote` form, and `strconv.Unquote` of that rendering recovers the
original string exactly. -/
theorem string_value_round_trip (h : commonHandler) (st : HState) (v : String)
    (hw : h.terminalWidth = 0) (hnl : '\n' ∉ v.data) :
    (v ≠ "" → v.data.any charNeedsQuoting = false →
      needsQuoting v = false ∧ (appendString h st v).buf = st.buf ++ v.data) ∧
    ((' ' ∈ v.data ∨ '=' ∈ v.data ∨ '"' ∈ v.data) →
      needsQuoting v = true ∧
      (appendString h st v).buf = st.buf ++ (goQuote v).data ∧
      goUnquote (goQuote v) = some v) := by
  constructor
  · intro hne hsafe
    have hq : needsQuoting v = false := by
      unfold needsQuoting
      have hlen : (v.length == 0) = false := by
        cases v with
        | mk data =>
            cases data with
            | nil => exact absurd rfl hne
            | cons c cs => rfl
      rw [hlen]
      simpa using hsafe
    exact ⟨hq, appendString_raw h st v hw hnl hq⟩
  · intro hsp
    have hq : needsQuoting v = true := by
      rcases hsp with hc | hc | hc
      · exact needsQuoting_of_mem v ' ' hc (by decide)
      · exact needsQuoting_of_mem v '=' hc (by decide)
      · exact needsQuoting_of_mem v '"' hc (by decide)
    exact ⟨hq, appendString_quoted h st v hw hnl hq, goUnquote_goQuote v⟩

/-- C6 amended, witness: `abc` renders raw; `a b=c"d` renders as its quoted
form `"a b=c\"d"` and unquotes back to `a b=c"d`. -/
theorem string_value_round_trip_witness :
    (baseHandler.terminalWidth = 0 ∧ '\n' ∉ "abc".data ∧ "abc" ≠ "" ∧
      "abc".data.any charNeedsQuoting = false ∧ ' ' ∈ "a b=c\"d".data) ∧
    (needsQuoting "abc" = false ∧
      (appendString baseHandler (baseHandler.newHandleState [] "") "abc").buf =
        (baseHandler.newHandleState [] "").buf ++ "abc".data) ∧
    (needsQuoting "a b=c\"d" = true ∧
      (appendString baseHandler (baseHandler.newHandleState [] "") "a b=c\"d").buf =
        (baseHandler.newHandleState [] "").buf ++ (goQuote "a b=c\"d").data ∧
      goUnquote (goQuote "a b=c\"d") = some "a b=c\"d") :=
  ⟨⟨by decide, by decide, by decide, by decide, by decide⟩,
   (string_value_round_trip baseHandler (baseHandler.newHandleState [] "") "abc"
      (by decide) (by decide)).1 (by decide) (by decide),
   (string_value_round_trip baseHandler (baseHandler.newHandleState [] "") "a b=c\"d"
      (by decide) (by decide)).2 (Or.inl (by decide))⟩
